import Mathlib

/-! # Dadbot: trigger dispatch, pause state and cooldown gates

A shallow embedding of `Dadbot.go` (the message handler `messageCreate` and
everything it calls) together with theorems about it.

Conventions of the embedding

* Text is a list of Unicode code points (Go `rune`s), written as naturals.
* Time is an integer number of nanoseconds; a `time.Duration` is an integer
  number of nanoseconds as well.
* Every `time.Now()` of the source is an explicit clock reading, every
  `rand.Intn(n)` an explicit value below `n`, and the HTTP exchange of
  `getDadJoke` an explicit outcome; all of them are collected in `Env`.
* The process-wide variables (`isPaused`, `pauseEnd`, `lastJokeTime`,
  `lastGoodnightTime`) are the fields of `BotState`, passed explicitly.
* `ChannelMessageSend` and the HTTP request are recorded as `Effect`s.
* Logging is left out; it changes neither the state nor what is sent.
* `handleCatGirlRequest` and `handleThermostatRequest`, which `messageCreate`
  does not call, are embedded on their own.
* Concurrent callers are an interleaving of the sections that run under
  `pauseMu` (`PauseSection`, `runSections`).
-/

namespace Dadbot

/-! ## Text -/

/-- A Unicode code point (a Go `rune`). -/
abbrev Rune := Nat

/-- Message text: the sequence of code points of a Go string. -/
abbrev Text := List Rune

/-- The code points of a string literal. -/
def runes (s : String) : Text := s.toList.map Char.toNat

/-- Go `unicode.ToLower`. ASCII is exact (`A`..`Z` move down by 32). Outside
ASCII the two code points whose lower case is an ASCII letter are mapped
(U+0130 to `i`, U+212A KELVIN SIGN to `k`); every other code point outside
ASCII is left as it is, which agrees with Go on every comparison against an
ASCII literal, the only use the handlers make of the result. -/
def toLowerRune (r : Rune) : Rune :=
  if r ≤ 127 then
    if 65 ≤ r ∧ r ≤ 90 then r + 32 else r
  else if r = 0x130 then 105
  else if r = 0x212A then 107
  else r

/-- Go `strings.ToLower`. -/
def toLower (s : Text) : Text := s.map toLowerRune

/-- Go `unicode.IsSpace`. -/
def isSpaceRune (r : Rune) : Bool :=
  decide (9 ≤ r ∧ r ≤ 13) || r == 32 || r == 0x85 || r == 0xA0 || r == 0x1680 ||
  decide (0x2000 ≤ r ∧ r ≤ 0x200A) || r == 0x2028 || r == 0x2029 || r == 0x202F ||
  r == 0x205F || r == 0x3000

/-- Go `strings.TrimSpace`: leading and trailing white space removed. -/
def trimSpace (s : Text) : Text :=
  ((s.dropWhile isSpaceRune).reverse.dropWhile isSpaceRune).reverse

/-! ## The regular expressions

Go's `regexp` gives the leftmost match and, among the matches starting there,
the one a backtracking matcher finds first. Each pattern of the source is
written out as that backtracking matcher. -/

/-- The class `\w` of the regexp package: `[0-9A-Za-z_]`. -/
def isWordRune (r : Rune) : Bool :=
  decide (48 ≤ r ∧ r ≤ 57) || decide (65 ≤ r ∧ r ≤ 90) || r == 95 ||
  decide (97 ≤ r ∧ r ≤ 122)

/-- The assertion `\b` between the rune before the position (`none` at the start
of the text) and the text that follows: exactly one side is a word rune. -/
def isWordBoundary (prev : Option Rune) (rest : Text) : Bool :=
  (match prev with
   | some p => isWordRune p
   | none => false) !=
  (match rest with
   | c :: _ => isWordRune c
   | [] => false)

/-- The class `\s` of the regexp package: `[\t\n\f\r ]`. -/
def isRegexSpace (r : Rune) : Bool :=
  r == 9 || r == 10 || r == 12 || r == 13 || r == 32

/-- Simple case folding as far as the letters of the patterns go: the lower-case
representative of the folding orbit of `r`. Besides `A`..`Z`, U+017F (long s)
folds with `s` and U+212A (KELVIN SIGN) folds with `k`. -/
def simpleFold (r : Rune) : Rune :=
  if 65 ≤ r ∧ r ≤ 90 then r + 32
  else if r = 0x17F then 115
  else if r = 0x212A then 107
  else r

/-- Under `(?i)` the pattern rune `p` (written in lower case) matches `r`. -/
def foldEq (p r : Rune) : Bool := simpleFold r == p

/-- Match a literal under `(?i)` at the head of the text: the matched runes as
written in the text, and the text after them. -/
def matchLiteral : Text → Text → Option (Text × Text)
  | [], s => some ([], s)
  | _ :: _, [] => none
  | p :: ps, c :: cs =>
    if foldEq p c then
      match matchLiteral ps cs with
      | some (m, rest) => some (c :: m, rest)
      | none => none
    else none

/-- A closing `\b` after the matched runes `m`. -/
def wordEnd (m rest : Text) : Option Text :=
  if isWordBoundary m.getLast? rest then some m else none

/-- The group `(cigs|cigarette(s)?|milk)` followed by `\b`, tried in the order
of the alternatives; `(s)?` is greedy. -/
def pauseAlternatives (s : Text) : Option Text :=
  let cigs : Option Text :=
    match matchLiteral (runes "cigs") s with
    | some (m, rest) => wordEnd m rest
    | none => none
  let cigarette : Option Text :=
    match matchLiteral (runes "cigarette") s with
    | some (m, rest) =>
      let withS : Option Text :=
        match matchLiteral (runes "s") rest with
        | some (m2, rest2) => wordEnd (m ++ m2) rest2
        | none => none
      match withS with
      | some w => some w
      | none => wordEnd m rest
    | none => none
  let milk : Option Text :=
    match matchLiteral (runes "milk") s with
    | some (m, rest) => wordEnd m rest
    | none => none
  match cigs with
  | some w => some w
  | none =>
    match cigarette with
    | some w => some w
    | none => milk

/-- The whole of `pauseRegex` anchored at one position. -/
def pauseAt (prev : Option Rune) (s : Text) : Option Text :=
  if isWordBoundary prev s then pauseAlternatives s else none

/-- Leftmost search for `pauseRegex`, `prev` being the rune before the text. -/
def pauseScan : Option Rune → Text → Option Text
  | prev, [] => pauseAt prev []
  | prev, c :: cs =>
    match pauseAt prev (c :: cs) with
    | some m => some m
    | none => pauseScan (some c) cs

/-- The first element `matches[0]` of
`pauseRegex.FindStringSubmatch(content)`, `none` when the result is empty. -/
def pauseRegexFind (content : Text) : Option Text := pauseScan none content

/-- The group `(.+)`: as many runes as possible up to a line feed, at least one. -/
def dotPlus (s : Text) : Option Text :=
  match s.takeWhile (fun r => r != 10) with
  | [] => none
  | c :: cs => some (c :: cs)

/-- The part `\s+(.+)`: greedy white space, giving runes back one at a time until
`(.+)` matches. The result is the capture. -/
def spacesThenCapture : Text → Option Text
  | [] => none
  | c :: cs =>
    if isRegexSpace c then
      match spacesThenCapture cs with
      | some cap => some cap
      | none => dotPlus cs
    else none

/-- The part `m\s+(.+)`. -/
def dadAfterApostrophe : Text → Option Text
  | [] => none
  | c :: cs => if foldEq 109 c then spacesThenCapture cs else none

/-- The part `'?m\s+(.+)`; the optional apostrophe is greedy. -/
def dadAfterI (s : Text) : Option Text :=
  let withApostrophe : Option Text :=
    match s with
    | c :: cs => if c = 39 then dadAfterApostrophe cs else none
    | [] => none
  match withApostrophe with
  | some cap => some cap
  | none => dadAfterApostrophe s

/-- The whole of `dadRegex` anchored at one position; the result is capture 1. -/
def dadAt (prev : Option Rune) (s : Text) : Option Text :=
  if isWordBoundary prev s then
    match s with
    | c :: cs => if foldEq 105 c then dadAfterI cs else none
    | [] => none
  else none

/-- Leftmost search for `dadRegex`, `prev` being the rune before the text. -/
def dadScan : Option Rune → Text → Option Text
  | prev, [] => dadAt prev []
  | prev, c :: cs =>
    match dadAt prev (c :: cs) with
    | some cap => some cap
    | none => dadScan (some c) cs

/-- The element `matches[1]` of `dadRegex.FindStringSubmatch(content)`, `none`
when the result is empty (the source tests `len(matches) > 1`). -/
def dadRegexFind (content : Text) : Option Text := dadScan none content

/-! ## Time -/

/-- An instant, in nanoseconds. -/
abbrev Time := Int

/-- A `time.Duration`, in nanoseconds. -/
abbrev Duration := Int

/-- The constant `time.Second`. -/
def second : Duration := 1000000000

/-- The constant `time.Minute`. -/
def minute : Duration := 60 * second

/-- The largest `time.Duration` (an int64). -/
def maxDuration : Duration := 2 ^ 63 - 1

/-- The smallest `time.Duration` (an int64). -/
def minDuration : Duration := -(2 ^ 63)

/-- Go `t.Sub(u)`: the difference, saturated to the range of `time.Duration`. -/
def timeSub (t u : Time) : Duration :=
  if t - u > maxDuration then maxDuration
  else if t - u < minDuration then minDuration
  else t - u

/-- Go `time.Since(t)` evaluated at the clock reading `now`. -/
def timeSince (now t : Time) : Duration := timeSub now t

/-- Go `t.Before(u)`. -/
def timeBefore (t u : Time) : Bool := decide (t < u)

/-- Go `t.After(u)`. -/
def timeAfter (t u : Time) : Bool := decide (t > u)

/-- Go `t.Add(d)`. -/
def timeAdd (t : Time) (d : Duration) : Time := t + d

/-- The zero `time.Time` (1 January of year 1), as an offset from the Unix
epoch. -/
def zeroTime : Time := -62135596800 * second

/-- The variable `jokeCooldown`. -/
def jokeCooldown : Duration := 5 * second

/-- The variable `goodnightCooldown`. -/
def goodnightCooldown : Duration := 3 * second

/-! ## State, inputs and effects -/

/-- The package-level mutable variables. -/
structure BotState where
  isPaused : Bool
  pauseEnd : Time
  lastJokeTime : Time
  lastGoodnightTime : Time
  deriving DecidableEq, Repr

/-- The state at process start: every variable has its zero value. -/
def initialState : BotState :=
  { isPaused := false, pauseEnd := zeroTime, lastJokeTime := zeroTime,
    lastGoodnightTime := zeroTime }

/-- The fields of `discordgo.MessageCreate` the handlers read. -/
structure Message where
  authorID : String
  channelID : String
  content : Text
  deriving DecidableEq, Repr

/-- The field of `discordgo.Session` the handlers read: `s.State.User.ID`. -/
structure Session where
  userID : String
  deriving DecidableEq, Repr

/-- An externally visible action of a handler. -/
inductive Effect where
  /-- The call `s.ChannelMessageSend(channelID, text)`. -/
  | send (channelID : String) (text : Text)
  /-- The call `getDadJoke()`: one HTTP request to the joke service. -/
  | fetch
  deriving DecidableEq, Repr

/-- How the HTTP exchange inside `getDadJoke` ends. -/
inductive HttpExchange where
  /-- The call `http.NewRequest` returns an error. -/
  | requestError (err : String)
  /-- The call `httpClient.Do` returns an error: network failure or timeout. -/
  | transportError (err : String)
  /-- A response arrives but `io.ReadAll` on its body returns an error. -/
  | bodyError (status : Nat) (err : String)
  /-- A response arrives with the given status code and a readable body. -/
  | response (status : Nat) (body : Text)
  deriving DecidableEq, Repr

/-- The variable `goodnightMessages`. -/
def goodnightMessages : List Text :=
  [ runes "Goodnight Snore-osaurus Rex.",
    runes "Goodnight? I’ll try… but I’ve been practicing for the greatnight.",
    runes "Goodnight! Sleep tight!",
    runes "Goodnight? Careful… last time I went to bed early, I woke up in tomorrow.",
    runes "Goodnight! Don’t let the bedbugs byte… they’re terrible at debugging.",
    runes "Don't forget to brush your teeth" ]

/-- Everything one call of `messageCreate` takes from outside the program:
the clock readings in program order, the random values, the HTTP exchange. -/
structure Env where
  /-- The reading `time.Now()` in `paused && time.Now().Before(end)`. -/
  nowPauseCheck : Time
  /-- The reading `time.Now()` in `paused && time.Now().After(end)`. -/
  nowPauseExpiry : Time
  /-- The reading `time.Now()` in `pauseEnd = time.Now().Add(pauseDuration)`. -/
  nowPauseSet : Time
  /-- The reading inside `time.Since(lastJokeTime)`. -/
  nowJokeSince : Time
  /-- The reading `time.Now()` in `lastJokeTime = time.Now()`. -/
  nowJokeSet : Time
  /-- The reading inside `time.Since(lastGoodnightTime)`. -/
  nowGoodnightSince : Time
  /-- The reading `time.Now()` in `lastGoodnightTime = time.Now()`. -/
  nowGoodnightSet : Time
  /-- The value of `rand.Intn(6)`. -/
  randPause : Fin 6
  /-- The value of `rand.Intn(len(goodnightMessages))`. -/
  randGoodnight : Fin goodnightMessages.length
  /-- The HTTP exchange of `getDadJoke`. -/
  http : HttpExchange

/-- An environment in which every clock reading is the same instant `now`. -/
def Env.atInstant (now : Time) (randPause : Fin 6)
    (randGoodnight : Fin goodnightMessages.length) (http : HttpExchange) : Env :=
  { nowPauseCheck := now, nowPauseExpiry := now, nowPauseSet := now,
    nowJokeSince := now, nowJokeSet := now, nowGoodnightSince := now,
    nowGoodnightSet := now, randPause := randPause, randGoodnight := randGoodnight,
    http := http }

/-- What a handler returns and does: its boolean result, the state it leaves,
the effects it performed in order. -/
structure HResult where
  handled : Bool
  state : BotState
  effects : List Effect
  deriving DecidableEq, Repr

/-- The texts sent by a run, with their channels, in order. -/
def sends : List Effect → List (String × Text)
  | [] => []
  | Effect.send ch txt :: es => (ch, txt) :: sends es
  | Effect.fetch :: es => sends es

/-- The function `shouldSkipMessage`. -/
def shouldSkipMessage (s : Session) (m : Message) : Bool :=
  m.authorID == s.userID

/-- The function `isBotPaused`, with its two clock readings: the result and the
state it leaves. -/
def isBotPaused (st : BotState) (now1 now2 : Time) : Bool × BotState :=
  let paused := st.isPaused
  let pend := st.pauseEnd
  if paused && timeBefore now1 pend then (true, st)
  else if paused && timeAfter now2 pend then (false, { st with isPaused := false })
  else (false, st)

/-- The function `handlePauseTrigger`. -/
def handlePauseTrigger (m : Message) (env : Env) (st : BotState) : HResult :=
  match pauseRegexFind m.content with
  | some pauseWord =>
    let response := runes "Be back in 20, gonna go grab some " ++ pauseWord
    let randomMinutes : Int := env.randPause.val
    let pauseDuration : Duration := (15 + randomMinutes) * minute
    { handled := true,
      state := { st with isPaused := true, pauseEnd := timeAdd env.nowPauseSet pauseDuration },
      effects := [Effect.send m.channelID response] }
  | none => { handled := false, state := st, effects := [] }

/-- The function `handleDadResponse`. -/
def handleDadResponse (m : Message) (st : BotState) : HResult :=
  match dadRegexFind m.content with
  | some capture =>
    let extracted := trimSpace capture
    let response :=
      if toLower extracted = runes "dad" then runes "No, I'm dad!"
      else runes "Hi " ++ extracted ++ runes ", I'm Dad!"
    { handled := true, state := st, effects := [Effect.send m.channelID response] }
  | none => { handled := false, state := st, effects := [] }

/-- The function `handleWinLoseTrigger`. -/
def handleWinLoseTrigger (m : Message) (st : BotState) : HResult :=
  let msg := toLower m.content
  if msg ≠ runes "can't win" ∧ msg ≠ runes "cant win" ∧ msg ≠ runes "keep losing" then
    { handled := false, state := st, effects := [] }
  else
    let gifLink := runes "https://tenor.com/view/are-ya-winning-son-gif-18099517"
    { handled := true, state := st, effects := [Effect.send m.channelID gifLink] }

/-- The function `handleGoodnightRequest`. -/
def handleGoodnightRequest (m : Message) (env : Env) (st : BotState) : HResult :=
  let msg := toLower m.content
  if msg ≠ runes "good night" ∧ msg ≠ runes "goodnight" then
    { handled := false, state := st, effects := [] }
  else if timeSince env.nowGoodnightSince st.lastGoodnightTime < goodnightCooldown then
    { handled := false, state := st, effects := [] }
  else
    let st1 := { st with lastGoodnightTime := env.nowGoodnightSet }
    let response := goodnightMessages.get env.randGoodnight
    { handled := true, state := st1, effects := [Effect.send m.channelID response] }

/-- The function `getDadJoke`, as a function of how the HTTP exchange ends. The
status code of a response is not looked at. -/
def getDadJoke : HttpExchange → Except String Text
  | HttpExchange.requestError err => Except.error err
  | HttpExchange.transportError err => Except.error err
  | HttpExchange.bodyError _ err => Except.error err
  | HttpExchange.response _ body => Except.ok body

/-- The fallback line of `handleJokeRequest`. -/
def jokeFallback : Text := runes "Gosh dang joke AI always breakin. Tell Clutch to fix it."

/-- The function `handleJokeRequest`. -/
def handleJokeRequest (m : Message) (env : Env) (st : BotState) : HResult :=
  if toLower m.content ≠ runes "tell me a joke" then
    { handled := false, state := st, effects := [] }
  else if timeSince env.nowJokeSince st.lastJokeTime < jokeCooldown then
    { handled := false, state := st, effects := [] }
  else
    let st1 := { st with lastJokeTime := env.nowJokeSet }
    match getDadJoke env.http with
    | Except.error _ =>
      { handled := true, state := st1,
        effects := [Effect.fetch, Effect.send m.channelID jokeFallback] }
    | Except.ok joke =>
      { handled := true, state := st1,
        effects := [Effect.fetch, Effect.send m.channelID joke] }

/-! ## The dispatcher -/

/-- The handlers named in the chain of `messageCreate`. -/
inductive HandlerId where
  | pauseTrigger
  | dadResponse
  | winLoseTrigger
  | jokeRequest
  | goodnightRequest
  deriving DecidableEq, Repr

/-- The handler behind each name. -/
def runHandler (h : HandlerId) (m : Message) (env : Env) (st : BotState) : HResult :=
  match h with
  | HandlerId.pauseTrigger => handlePauseTrigger m env st
  | HandlerId.dadResponse => handleDadResponse m st
  | HandlerId.winLoseTrigger => handleWinLoseTrigger m st
  | HandlerId.jokeRequest => handleJokeRequest m env st
  | HandlerId.goodnightRequest => handleGoodnightRequest m env st

/-- The operands of the expression assigned to `responseSent`, left to right. -/
def dispatchChain : List HandlerId :=
  [HandlerId.pauseTrigger, HandlerId.dadResponse, HandlerId.winLoseTrigger,
   HandlerId.jokeRequest, HandlerId.goodnightRequest]

/-- What one call of `messageCreate` leaves behind: the value of `responseSent`
(`false` when the call returns before the chain), the state, the effects in
order, and every handler that was called with the value it returned. -/
structure Outcome where
  responseSent : Bool
  state : BotState
  effects : List Effect
  returns : List (HandlerId × Bool)
  deriving DecidableEq, Repr

/-- Go's short-circuit `h1(s, m) || h2(s, m) || ...`: the handlers are called
left to right until one returns true; the rest are not called. -/
def orChain (m : Message) (env : Env) : List HandlerId → BotState → Outcome
  | [], st => { responseSent := false, state := st, effects := [], returns := [] }
  | h :: hs, st =>
    let r := runHandler h m env st
    if r.handled then
      { responseSent := true, state := r.state, effects := r.effects, returns := [(h, true)] }
    else
      let o := orChain m env hs r.state
      { responseSent := o.responseSent, state := o.state,
        effects := r.effects ++ o.effects, returns := (h, false) :: o.returns }

/-- The function `messageCreate`. -/
def messageCreate (s : Session) (m : Message) (env : Env) (st : BotState) : Outcome :=
  if shouldSkipMessage s m then
    { responseSent := false, state := st, effects := [], returns := [] }
  else
    let p := isBotPaused st env.nowPauseCheck env.nowPauseExpiry
    if p.1 then
      { responseSent := false, state := p.2, effects := [], returns := [] }
    else
      orChain m env dispatchChain p.2

/-- The state after a sequence of calls of `messageCreate`, one after the other. -/
def runState (s : Session) : List (Message × Env) → BotState → BotState
  | [], st => st
  | (m, env) :: rest, st => runState s rest (messageCreate s m env st).state

/-- The results of `n` successive calls of `isBotPaused`, each with both clock
readings equal to `now`. -/
def repeatedReads : Nat → Time → BotState → List Bool
  | 0, _, _ => []
  | n + 1, now, st =>
    (isBotPaused st now now).1 :: repeatedReads n now (isBotPaused st now now).2


/-! ## The cooldown guard of the specification -/

/-- The cooldown guard as the specification words it (`tryAcquire(window)`):
returns true and records `now` as the last-fired time iff
`now - lastFiredAt >= window`; returns false with no state change otherwise.
The result is the returned flag and the last-fired time afterwards. -/
def tryAcquireSpec (window : Duration) (lastFiredAt now : Time) : Bool × Time :=
  if now - lastFiredAt ≥ window then (true, now) else (false, lastFiredAt)

/-! ## The vocabulary of the consumption-break rule -/

/-- The words `pauseRegex` stands for, in lower case. -/
def pauseVocabulary : List Text :=
  [runes "cigs", runes "cigarette", runes "cigarettes", runes "milk"]

/-- A whole-word occurrence of a vocabulary word in any letter case inside the
text `pre ++ w ++ post`: `w` folds to a word of the vocabulary and there is a
word boundary before and after `w`. -/
def isPauseWordOccurrence (pre w post : Text) : Bool :=
  pauseVocabulary.contains (w.map simpleFold) &&
  isWordBoundary pre.getLast? (w ++ post) && isWordBoundary w.getLast? post

/-! ## The two handlers outside the chain

`handleCatGirlRequest` and `handleThermostatRequest` (lines 233 to 262 of the
source) are defined but are not operands of the chain in `messageCreate`. They
are embedded as written, with the function names read without the gap the
source has inside them and `[]String` read as `[]string`. -/

/-- The group `(budget|money|dollar?)` followed by `\b`, tried in the order of
the alternatives; `dollar?` is `dolla` with an optional, greedy `r`. -/
def catgirlAlternatives (s : Text) : Option Text :=
  let budget : Option Text :=
    match matchLiteral (runes "budget") s with
    | some (m, rest) => wordEnd m rest
    | none => none
  let money : Option Text :=
    match matchLiteral (runes "money") s with
    | some (m, rest) => wordEnd m rest
    | none => none
  let dollar : Option Text :=
    match matchLiteral (runes "dolla") s with
    | some (m, rest) =>
      let withR : Option Text :=
        match matchLiteral (runes "r") rest with
        | some (m2, rest2) => wordEnd (m ++ m2) rest2
        | none => none
      match withR with
      | some w => some w
      | none => wordEnd m rest
    | none => none
  match budget with
  | some w => some w
  | none =>
    match money with
    | some w => some w
    | none => dollar

/-- The whole of `catgirlRegex` anchored at one position. -/
def catgirlAt (prev : Option Rune) (s : Text) : Option Text :=
  if isWordBoundary prev s then catgirlAlternatives s else none

/-- Leftmost search for `catgirlRegex`, `prev` being the rune before the text. -/
def catgirlScan : Option Rune → Text → Option Text
  | prev, [] => catgirlAt prev []
  | prev, c :: cs =>
    match catgirlAt prev (c :: cs) with
    | some m => some m
    | none => catgirlScan (some c) cs

/-- The first element `matches[0]` of
`catgirlRegex.FindStringSubmatch(content)`, `none` when the result is empty. -/
def catgirlRegexFind (content : Text) : Option Text := catgirlScan none content

/-- The whole of `thermostatRegex`, `\btoo (hot|cold)\b`, anchored at one
position. -/
def thermostatAt (prev : Option Rune) (s : Text) : Option Text :=
  if isWordBoundary prev s then
    match matchLiteral (runes "too ") s with
    | some (m, rest) =>
      let hot : Option Text :=
        match matchLiteral (runes "hot") rest with
        | some (m2, rest2) => wordEnd (m ++ m2) rest2
        | none => none
      match hot with
      | some w => some w
      | none =>
        match matchLiteral (runes "cold") rest with
        | some (m2, rest2) => wordEnd (m ++ m2) rest2
        | none => none
    | none => none
  else none

/-- Leftmost search for `thermostatRegex`, `prev` being the rune before the
text. -/
def thermostatScan : Option Rune → Text → Option Text
  | prev, [] => thermostatAt prev []
  | prev, c :: cs =>
    match thermostatAt prev (c :: cs) with
    | some m => some m
    | none => thermostatScan (some c) cs

/-- The first element `matches[0]` of
`thermostatRegex.FindStringSubmatch(content)`, `none` when the result is empty. -/
def thermostatRegexFind (content : Text) : Option Text := thermostatScan none content

/-- The variable `thermostatMessages`. -/
def thermostatMessages : List Text :=
  [ runes "Don't touch that thermostat!",
    runes "Don't touch the thermostat! You don't pay the bills around here!" ]

/-- The reply of `handleCatGirlRequest`. -/
def catgirlReply : Text :=
  runes "Every dollar not spent on genetically engineering cat girls is a dollar wasted."

/-- The function `handleCatGirlRequest`. -/
def handleCatGirlRequest (m : Message) (st : BotState) : HResult :=
  match catgirlRegexFind m.content with
  | some _ =>
    { handled := true, state := st, effects := [Effect.send m.channelID catgirlReply] }
  | none => { handled := false, state := st, effects := [] }

/-- The function `handleThermostatRequest`; `r` is the value of
`rand.Intn(len(thermostatMessages))`. The source indexes `goodnightMessages`
with it. -/
def handleThermostatRequest (m : Message) (r : Fin thermostatMessages.length)
    (st : BotState) : HResult :=
  match thermostatRegexFind m.content with
  | some _ =>
    let response := goodnightMessages.get ⟨r.val, Nat.lt_of_lt_of_le r.isLt (by decide)⟩
    { handled := true, state := st, effects := [Effect.send m.channelID response] }
  | none => { handled := false, state := st, effects := [] }

/-! ## Concurrent callers of the pause state

The handlers run concurrently, one goroutine per message. What runs under
`pauseMu` is atomic; between two such sections of one caller the sections of
other callers may run. `isBotPaused` has two sections: it copies the state under
`RLock`, releases the lock, and only then decides and, under `Lock`, clears
`isPaused`. -/

/-- A step of one caller that other callers cannot interrupt. -/
inductive PauseSection where
  /-- Lines 151 to 154 of `isBotPaused`: under `RLock`, copy `isPaused` and
  `pauseEnd` into the caller's local variables `paused` and `end`. -/
  | snapshot (caller : Nat)
  /-- Lines 156 to 164 of `isBotPaused`: decide on the local variables with two
  clock readings; when they show an expired pause, write `isPaused = false`
  under `Lock`; return. -/
  | finish (caller : Nat) (now1 now2 : Time)
  /-- Lines 177 to 180 of `handlePauseTrigger`: under `Lock`, set `isPaused` and
  `pauseEnd`. -/
  | arm (now : Time) (r : Fin 6)
  deriving DecidableEq, Repr

/-- The shared state together with the local variables of the callers that are
inside `isBotPaused`, the values returned so far and the number of writes
`isPaused = false` performed. -/
structure PauseRun where
  state : BotState
  locals : List (Nat × (Bool × Time))
  results : List (Nat × Bool)
  clears : Nat
  deriving DecidableEq, Repr

/-- One step of an interleaving. A `finish` of a caller without local variables
(no `snapshot` before it) does nothing. -/
def stepSection (sec : PauseSection) (run : PauseRun) : PauseRun :=
  match sec with
  | PauseSection.snapshot caller =>
    { run with locals := (caller, (run.state.isPaused, run.state.pauseEnd)) :: run.locals }
  | PauseSection.finish caller now1 now2 =>
    match run.locals.lookup caller with
    | none => run
    | some (paused, pend) =>
      if paused && timeBefore now1 pend then
        { run with results := run.results ++ [(caller, true)] }
      else if paused && timeAfter now2 pend then
        { run with state := { run.state with isPaused := false },
                   results := run.results ++ [(caller, false)],
                   clears := run.clears + 1 }
      else
        { run with results := run.results ++ [(caller, false)] }
  | PauseSection.arm now r =>
    let pauseDuration : Duration := (15 + (r.val : Int)) * minute
    { run with state := { run.state with isPaused := true,
                                          pauseEnd := timeAdd now pauseDuration } }

/-- An interleaving: the steps in the order in which they run. -/
def runSections : List PauseSection → PauseRun → PauseRun
  | [], run => run
  | sec :: rest, run => runSections rest (stepSection sec run)

/-! ## Letter case -/

/-- The lower case of an ASCII letter; every other rune is left as it is. -/
def asciiLower (r : Rune) : Rune :=
  if 65 ≤ r ∧ r ≤ 90 then r + 32 else r

/-- Two texts that differ at most in the case of ASCII letters. -/
abbrev sameUpToCase (a b : Text) : Prop :=
  a.map asciiLower = b.map asciiLower

/-- Two replies that are equal except for an echoed part, which differs at most
in the case of its letters. -/
def sameReply (t1 t2 : Text) : Prop :=
  ∃ p e1 e2 q, t1 = p ++ e1 ++ q ∧ t2 = p ++ e2 ++ q ∧ sameUpToCase e1 e2

/-- Two effects that are the same up to the echoed part of a reply. -/
def sameEffect : Effect → Effect → Prop
  | Effect.send c1 t1, Effect.send c2 t2 => c1 = c2 ∧ sameReply t1 t2
  | Effect.fetch, Effect.fetch => True
  | _, _ => False

/-! ## Auxiliary facts -/

/-- The saturation of `time.Since` does not change a comparison with a duration
inside the int64 range. -/
theorem timeSince_lt_iff (now t w : Int) (h1 : -(2 ^ 63) < w) (h2 : w ≤ 2 ^ 63 - 1) :
    timeSince now t < w ↔ now - t < w := by
  simp only [timeSince, timeSub, maxDuration, minDuration]
  norm_num at h1 h2 ⊢
  split_ifs <;> constructor <;> intro h <;> simp only [Time, Duration] at * <;> omega

/-- The joke gate compares the plain difference with five seconds. -/
theorem timeSince_lt_jokeCooldown (now t : Time) :
    timeSince now t < jokeCooldown ↔ now - t < jokeCooldown := by
  apply timeSince_lt_iff <;> simp [jokeCooldown, second]

/-- The good-night gate compares the plain difference with three seconds. -/
theorem timeSince_lt_goodnightCooldown (now t : Time) :
    timeSince now t < goodnightCooldown ↔ now - t < goodnightCooldown := by
  apply timeSince_lt_iff <;> simp [goodnightCooldown, second]

/-- A `handlePauseTrigger` that returns false did nothing. -/
theorem handlePauseTrigger_unhandled (m : Message) (env : Env) (st : BotState)
    (h : (handlePauseTrigger m env st).handled = false) :
    (handlePauseTrigger m env st).effects = [] ∧ (handlePauseTrigger m env st).state = st := by
  unfold handlePauseTrigger at h ⊢
  cases hf : pauseRegexFind m.content <;> simp [hf] at h ⊢

/-- A `handleDadResponse` that returns false did nothing. -/
theorem handleDadResponse_unhandled (m : Message) (st : BotState)
    (h : (handleDadResponse m st).handled = false) :
    (handleDadResponse m st).effects = [] ∧ (handleDadResponse m st).state = st := by
  unfold handleDadResponse at h ⊢
  cases hf : dadRegexFind m.content <;> simp [hf] at h ⊢

/-- A `handleWinLoseTrigger` that returns false did nothing. -/
theorem handleWinLoseTrigger_unhandled (m : Message) (st : BotState)
    (h : (handleWinLoseTrigger m st).handled = false) :
    (handleWinLoseTrigger m st).effects = [] ∧ (handleWinLoseTrigger m st).state = st := by
  simp only [handleWinLoseTrigger] at h ⊢
  split_ifs at h ⊢
  simp

/-- A `handleJokeRequest` that returns false did nothing. -/
theorem handleJokeRequest_unhandled (m : Message) (env : Env) (st : BotState)
    (h : (handleJokeRequest m env st).handled = false) :
    (handleJokeRequest m env st).effects = [] ∧ (handleJokeRequest m env st).state = st := by
  simp only [handleJokeRequest] at h ⊢
  split_ifs at h ⊢
  · simp
  · simp
  · cases hj : getDadJoke env.http <;> simp [hj] at h

/-- A `handleGoodnightRequest` that returns false did nothing. -/
theorem handleGoodnightRequest_unhandled (m : Message) (env : Env) (st : BotState)
    (h : (handleGoodnightRequest m env st).handled = false) :
    (handleGoodnightRequest m env st).effects = [] ∧
      (handleGoodnightRequest m env st).state = st := by
  simp only [handleGoodnightRequest] at h ⊢
  split_ifs at h ⊢ <;> simp at h ⊢

/-- Every handler of the chain that returns false has no effect and leaves the
state as it was. -/
theorem runHandler_unhandled (h : HandlerId) (m : Message) (env : Env) (st : BotState)
    (hu : (runHandler h m env st).handled = false) :
    (runHandler h m env st).effects = [] ∧ (runHandler h m env st).state = st := by
  cases h
  · exact handlePauseTrigger_unhandled m env st hu
  · exact handleDadResponse_unhandled m st hu
  · exact handleWinLoseTrigger_unhandled m st hu
  · exact handleJokeRequest_unhandled m env st hu
  · exact handleGoodnightRequest_unhandled m env st hu

/-- Every handler of the chain sends at most once. -/
theorem runHandler_sends_le_one (h : HandlerId) (m : Message) (env : Env) (st : BotState) :
    (sends (runHandler h m env st).effects).length ≤ 1 := by
  cases h
  · simp only [runHandler, handlePauseTrigger]
    cases pauseRegexFind m.content <;> simp [sends]
  · simp only [runHandler, handleDadResponse]
    cases dadRegexFind m.content <;> simp [sends]
  · simp only [runHandler, handleWinLoseTrigger]
    split_ifs <;> simp [sends]
  · simp only [runHandler, handleJokeRequest]
    split_ifs
    · simp [sends]
    · simp [sends]
    · cases getDadJoke env.http <;> simp [sends]
  · simp only [runHandler, handleGoodnightRequest]
    split_ifs <;> simp [sends]

/-- A short-circuit chain of handlers sends at most once. -/
theorem orChain_sends_le_one (m : Message) (env : Env) (hs : List HandlerId) (st : BotState) :
    (sends (orChain m env hs st).effects).length ≤ 1 := by
  induction hs generalizing st with
  | nil => simp [orChain, sends]
  | cons h hs ih =>
    unfold orChain
    by_cases hh : (runHandler h m env st).handled = true
    · simp only [hh, if_true]
      exact runHandler_sends_le_one h m env st
    · have hf : (runHandler h m env st).handled = false := by simpa using hh
      have hu := runHandler_unhandled h m env st hf
      simp only [hf, hu.1, List.nil_append]
      simpa using ih _

/-- In a short-circuit chain at most one handler returns true. -/
theorem orChain_handled_le_one (m : Message) (env : Env) (hs : List HandlerId) (st : BotState) :
    ((orChain m env hs st).returns.filter (fun p => p.2)).length ≤ 1 := by
  induction hs generalizing st with
  | nil => simp [orChain]
  | cons h hs ih =>
    unfold orChain
    by_cases hh : (runHandler h m env st).handled = true
    · simp [hh]
    · have hf : (runHandler h m env st).handled = false := by simpa using hh
      simp only [hf]
      simpa using ih _

/-- Reads at the instant `pauseEnd` return false and change nothing. -/
theorem repeatedReads_boundary (n : Nat) (st : BotState) :
    repeatedReads n st.pauseEnd st = List.replicate n false := by
  induction n with
  | zero => rfl
  | succ k ih =>
    have h : isBotPaused st st.pauseEnd st.pauseEnd = (false, st) := by
      simp [isBotPaused, timeBefore, timeAfter]
    simp only [repeatedReads, h, ih, List.replicate_succ]

/-- A read of `isBotPaused` whose second clock reading is strictly after
`pauseEnd`, the first being at or after it, clears `isPaused`. -/
theorem isBotPaused_clears_after (st : BotState) (now1 now2 : Time)
    (h1 : st.pauseEnd ≤ now1) (h2 : st.pauseEnd < now2) :
    (isBotPaused st now1 now2).2.isPaused = false := by
  have hb : ¬ now1 < st.pauseEnd := not_lt.mpr h1
  cases hp : st.isPaused <;> simp [isBotPaused, timeBefore, timeAfter, hp, hb, h2]

/-- While the pause lasts a call of `messageCreate` does nothing at all. -/
theorem messageCreate_dropped_while_paused (s : Session) (m : Message) (env : Env)
    (st : BotState) (hp : st.isPaused = true) (hnow : env.nowPauseCheck < st.pauseEnd) :
    messageCreate s m env st =
      { responseSent := false, state := st, effects := [], returns := [] } := by
  have hb : isBotPaused st env.nowPauseCheck env.nowPauseExpiry = (true, st) := by
    simp [isBotPaused, hp, timeBefore, hnow]
  simp only [messageCreate, hb]
  split_ifs <;> rfl

/-- A sequence of calls that all start before the pause ends leaves the state
as it was. -/
theorem runState_while_paused (s : Session) (bound : Time) (between : List (Message × Env))
    (hb : ∀ p ∈ between, p.2.nowPauseCheck < bound) (st : BotState)
    (hp : st.isPaused = true) (hend : bound ≤ st.pauseEnd) :
    runState s between st = st := by
  induction between with
  | nil => rfl
  | cons p rest ih =>
    obtain ⟨m, env⟩ := p
    have h1 : env.nowPauseCheck < st.pauseEnd :=
      lt_of_lt_of_le (hb (m, env) (List.mem_cons_self _ _)) hend
    simp only [runState, messageCreate_dropped_while_paused s m env st hp h1]
    exact ih (fun q hq => hb q (List.mem_cons_of_mem _ hq))

/-- The text left by `dropWhile` is empty or starts with a rune that fails the
test. -/
theorem dropWhile_head (p : Rune → Bool) (s : Text) :
    s.dropWhile p = [] ∨ ∃ x rest, s.dropWhile p = x :: rest ∧ p x = false := by
  induction s with
  | nil => exact Or.inl rfl
  | cons a t ih =>
    by_cases ha : p a = true
    · simpa [List.dropWhile, ha] using ih
    · right
      exact ⟨a, t, by simp [List.dropWhile, ha], by simpa using ha⟩

/-- What `(.+)` captures: a non-empty run without line feed that stops at the end
of the text or before a line feed. -/
theorem dotPlus_sound (s c : Text) (h : dotPlus s = some c) :
    ∃ post, s = c ++ post ∧ c ≠ [] ∧ (∀ x ∈ c, x ≠ 10) ∧ (post = [] ∨ post.head? = some 10) := by
  have hc : c = s.takeWhile (fun r => r != 10) ∧ c ≠ [] := by
    unfold dotPlus at h
    cases ht : s.takeWhile (fun r => r != 10) with
    | nil => simp [ht] at h
    | cons a t =>
      simp only [ht] at h
      cases h
      exact ⟨rfl, by simp⟩
  refine ⟨s.dropWhile (fun r => r != 10), ?_, hc.2, ?_, ?_⟩
  · rw [hc.1, List.takeWhile_append_dropWhile]
  · intro x hx
    rw [hc.1] at hx
    simpa using List.mem_takeWhile_imp hx
  · rcases dropWhile_head (fun r => r != 10) s with h0 | ⟨x, rest, h1, h2⟩
    · exact Or.inl h0
    · right
      have hx : x = 10 := by simpa using h2
      simp [h1, hx]

/-- What `\s+(.+)` consumes: a non-empty run of white space, then the capture. -/
theorem spacesThenCapture_sound (s c : Text) (h : spacesThenCapture s = some c) :
    ∃ ws post, s = ws ++ c ++ post ∧ ws ≠ [] ∧ (∀ x ∈ ws, isRegexSpace x = true) ∧
      c ≠ [] ∧ (∀ x ∈ c, x ≠ 10) ∧ (post = [] ∨ post.head? = some 10) := by
  induction s generalizing c with
  | nil => simp [spacesThenCapture] at h
  | cons a t ih =>
    by_cases ha : isRegexSpace a = true
    · simp only [spacesThenCapture, ha, if_true] at h
      cases hr : spacesThenCapture t with
      | some c1 =>
        simp only [hr] at h
        cases h
        obtain ⟨ws, post, h1, _, h3, h4, h5, h6⟩ := ih _ hr
        refine ⟨a :: ws, post, by simp [h1], by simp, ?_, h4, h5, h6⟩
        intro x hx
        rcases List.mem_cons.mp hx with rfl | hx
        · exact ha
        · exact h3 x hx
      | none =>
        simp only [hr] at h
        obtain ⟨post, h1, h2, h3, h4⟩ := dotPlus_sound t c h
        exact ⟨[a], post, by simp [h1], by simp, by simpa using ha, h2, h3, h4⟩
    · simp [spacesThenCapture, ha] at h

/-- What `dadRegex` matches at one position: `i`, an optional apostrophe, `m`
(both in either case), white space, then the capture. -/
theorem dadAt_sound (prev : Option Rune) (s c : Text) (h : dadAt prev s = some c) :
    isWordBoundary prev s = true ∧
    ∃ i apos mm ws post, s = i :: (apos ++ mm :: (ws ++ c ++ post)) ∧
      simpleFold i = 105 ∧ (apos = [] ∨ apos = [39]) ∧ simpleFold mm = 109 ∧
      ws ≠ [] ∧ (∀ x ∈ ws, isRegexSpace x = true) ∧
      c ≠ [] ∧ (∀ x ∈ c, x ≠ 10) ∧ (post = [] ∨ post.head? = some 10) := by
  have key : ∀ (t : Text), dadAfterApostrophe t = some c →
      ∃ mm ws post, t = mm :: (ws ++ c ++ post) ∧ simpleFold mm = 109 ∧
        ws ≠ [] ∧ (∀ x ∈ ws, isRegexSpace x = true) ∧
        c ≠ [] ∧ (∀ x ∈ c, x ≠ 10) ∧ (post = [] ∨ post.head? = some 10) := by
    intro t ht
    cases t with
    | nil => simp [dadAfterApostrophe] at ht
    | cons mm u =>
      by_cases hm : foldEq 109 mm = true
      · simp only [dadAfterApostrophe, hm, if_true] at ht
        obtain ⟨ws, post, h1, h2, h3, h4, h5, h6⟩ := spacesThenCapture_sound u c ht
        exact ⟨mm, ws, post, by rw [h1], by simpa [foldEq] using hm, h2, h3, h4, h5, h6⟩
      · simp [dadAfterApostrophe, hm] at ht
  by_cases hb : isWordBoundary prev s = true
  · refine ⟨hb, ?_⟩
    simp only [dadAt, hb, if_true] at h
    cases s with
    | nil => simp at h
    | cons i t =>
      by_cases hi : foldEq 105 i = true
      · simp only [hi, if_true] at h
        have hi' : simpleFold i = 105 := by simpa [foldEq] using hi
        simp only [dadAfterI] at h
        cases t with
        | nil => simp [dadAfterApostrophe] at h
        | cons a u =>
          by_cases ha : a = 39
          · subst ha
            cases hw : dadAfterApostrophe u with
            | some c1 =>
              simp [hw] at h
              subst h
              obtain ⟨mm, ws, post, h1, h2, h3⟩ := key u hw
              exact ⟨i, [39], mm, ws, post, by simp [h1], hi', Or.inr rfl, h2, h3⟩
            | none =>
              simp [hw] at h
              obtain ⟨mm, ws, post, h1, h2, h3⟩ := key _ h
              exact ⟨i, [], mm, ws, post, by simp [h1], hi', Or.inl rfl, h2, h3⟩
          · simp only [ha, if_false] at h
            obtain ⟨mm, ws, post, h1, h2, h3⟩ := key _ h
            exact ⟨i, [], mm, ws, post, by simp [h1], hi', Or.inl rfl, h2, h3⟩
      · simp [hi] at h
  · simp [dadAt, hb] at h

/-- The leftmost search for `dadRegex` returns the capture of a match at some
position, and there is no match at any earlier position. -/
theorem dadScan_sound (prev : Option Rune) (s c : Text) (h : dadScan prev s = some c) :
    ∃ pre t, s = pre ++ t ∧ dadAt (if pre = [] then prev else pre.getLast?) t = some c ∧
      ∀ pre1 t1, s = pre1 ++ t1 → pre1.length < pre.length →
        dadAt (if pre1 = [] then prev else pre1.getLast?) t1 = none := by
  induction s generalizing prev with
  | nil =>
    refine ⟨[], [], rfl, by simpa [dadScan] using h, ?_⟩
    intro pre1 t1 _ hl
    simp at hl
  | cons a t ih =>
    cases hd : dadAt prev (a :: t) with
    | some c1 =>
      simp only [dadScan, hd] at h
      cases h
      refine ⟨[], a :: t, rfl, by simpa using hd, ?_⟩
      intro pre1 t1 _ hl
      simp at hl
    | none =>
      simp only [dadScan, hd] at h
      obtain ⟨pre, u, h1, h2, h3⟩ := ih (some a) h
      refine ⟨a :: pre, u, by simp [h1], ?_, ?_⟩
      · cases pre with
        | nil => simpa using h2
        | cons b r => simpa [List.getLast?_cons_cons] using h2
      · intro pre1 t1 he hl
        cases pre1 with
        | nil =>
          simp only [List.nil_append] at he
          subst he
          simpa using hd
        | cons b r =>
          simp only [List.cons_append, List.cons.injEq] at he
          obtain ⟨rfl, he⟩ := he
          have := h3 r t1 he (by simpa using hl)
          cases r with
          | nil => simpa using this
          | cons b2 r2 => simpa [List.getLast?_cons_cons] using this

/-- One step of `\s+(.+)`. -/
theorem spacesThenCapture_cons (c : Rune) (cs : Text) :
    spacesThenCapture (c :: cs) =
      if isRegexSpace c then
        match spacesThenCapture cs with
        | some cap => some cap
        | none => dotPlus cs
      else none := by
  rw [spacesThenCapture]

/-- White space followed by a rune other than a line feed is matched by
`\s+(.+)`. -/
theorem spacesThenCapture_complete (ws : Text) (x : Rune) (rest : Text) (hne : ws ≠ [])
    (hws : ∀ y ∈ ws, isRegexSpace y = true) (hx : x ≠ 10) :
    (spacesThenCapture (ws ++ x :: rest)).isSome = true := by
  induction ws with
  | nil => exact absurd rfl hne
  | cons w ws1 ih =>
    have hw : isRegexSpace w = true := hws w (List.mem_cons_self _ _)
    rw [List.cons_append, spacesThenCapture_cons, if_pos hw]
    cases ws1 with
    | nil =>
      rw [List.nil_append]
      cases spacesThenCapture (x :: rest) with
      | some c => rfl
      | none =>
        have hx1 : (x != 10) = true := by simpa using hx
        simp [dotPlus, List.takeWhile, hx1]
    | cons w1 ws2 =>
      have h1 := ih (by simp) (fun y hy => hws y (List.mem_cons_of_mem _ hy))
      obtain ⟨c, hc⟩ := Option.isSome_iff_exists.mp h1
      rw [hc]
      rfl

/-- An occurrence of the pattern at a position is matched by `dadRegex` there. -/
theorem dadAt_complete (prev : Option Rune) (i : Rune) (apos : Text) (mm : Rune)
    (ws : Text) (x : Rune) (rest : Text)
    (hb : isWordBoundary prev (i :: (apos ++ mm :: (ws ++ x :: rest))) = true)
    (hi : simpleFold i = 105) (hapos : apos = [] ∨ apos = [39]) (hm : simpleFold mm = 109)
    (hne : ws ≠ []) (hws : ∀ y ∈ ws, isRegexSpace y = true) (hx : x ≠ 10) :
    (dadAt prev (i :: (apos ++ mm :: (ws ++ x :: rest)))).isSome = true := by
  obtain ⟨c, hc⟩ := Option.isSome_iff_exists.mp (spacesThenCapture_complete ws x rest hne hws hx)
  have hfi : foldEq 105 i = true := by simp [foldEq, hi]
  have hfm : foldEq 109 mm = true := by simp [foldEq, hm]
  have h39 : mm ≠ 39 := by
    intro h
    rw [h] at hm
    simp [simpleFold] at hm
  rcases hapos with rfl | rfl
  · simp only [List.nil_append] at hb ⊢
    simp [dadAt, hb, hfi, dadAfterI, dadAfterApostrophe, hfm, h39, hc]
  · simp only [List.singleton_append] at hb ⊢
    simp [dadAt, hb, hfi, dadAfterI, dadAfterApostrophe, hfm, hc]

/-- A match of `dadRegex` at some position makes the leftmost search succeed. -/
theorem dadScan_complete (prev : Option Rune) (pre t : Text)
    (h : (dadAt (if pre = [] then prev else pre.getLast?) t).isSome = true) :
    (dadScan prev (pre ++ t)).isSome = true := by
  induction pre generalizing prev with
  | nil =>
    obtain ⟨c, hc⟩ := Option.isSome_iff_exists.mp h
    simp only [if_true] at hc
    cases t with
    | nil => simp [dadScan, hc]
    | cons a u => simp [dadScan, hc]
  | cons a r ih =>
    simp only [List.cons_append, dadScan]
    cases dadAt prev (a :: (r ++ t)) with
    | some c => rfl
    | none =>
      apply ih (some a)
      cases r with
      | nil => simpa using h
      | cons b r2 => simpa [List.getLast?_cons_cons] using h

/-- The white space of the regexp package is white space for `TrimSpace`. -/
theorem isSpaceRune_of_isRegexSpace (x : Rune) (h : isRegexSpace x = true) :
    isSpaceRune x = true := by
  simp only [isRegexSpace, Bool.or_eq_true, beq_iff_eq] at h
  rcases h with (((rfl | rfl) | rfl) | rfl) | rfl <;> decide

/-- Leading white space does not change the result of `TrimSpace`. -/
theorem trimSpace_cons_space (x : Rune) (s : Text) (h : isSpaceRune x = true) :
    trimSpace (x :: s) = trimSpace s := by
  simp [trimSpace, List.dropWhile, h]

/-- On a text without line feed `(.+)` captures everything. -/
theorem dotPlus_line (s : Text) (hne : s ≠ []) (hline : ∀ y ∈ s, y ≠ 10) :
    dotPlus s = some s := by
  have ht : s.takeWhile (fun r => r != 10) = s := by
    rw [List.takeWhile_eq_self_iff]
    intro y hy
    simpa using hline y hy
  unfold dotPlus
  rw [ht]
  cases s with
  | nil => exact absurd rfl hne
  | cons a t => rfl

/-- After one white-space rune and a non-empty rest of one line, `\s+(.+)`
matches, and its capture trims to the same text as the rest. -/
theorem spacesThenCapture_line (rest : Text) (hne : rest ≠ []) (hline : ∀ y ∈ rest, y ≠ 10)
    (w : Rune) (hw : isRegexSpace w = true) :
    ∃ c, spacesThenCapture (w :: rest) = some c ∧ trimSpace c = trimSpace rest := by
  induction rest generalizing w with
  | nil => exact absurd rfl hne
  | cons x r ih =>
    rw [spacesThenCapture_cons, if_pos hw]
    cases hs : spacesThenCapture (x :: r) with
    | none =>
      exact ⟨x :: r, by simp [dotPlus_line (x :: r) hne hline], rfl⟩
    | some cap =>
      refine ⟨cap, rfl, ?_⟩
      have hx : isRegexSpace x = true := by
        by_contra hn
        rw [spacesThenCapture_cons, if_neg hn] at hs
        cases hs
      cases r with
      | nil =>
        simp [spacesThenCapture_cons, hx, spacesThenCapture, dotPlus] at hs
      | cons y r2 =>
        obtain ⟨c, h1, h2⟩ := ih (by simp) (fun z hz => hline z (List.mem_cons_of_mem _ hz)) x hx
        rw [hs] at h1
        cases h1
        rw [h2, trimSpace_cons_space x _ (isSpaceRune_of_isRegexSpace x hx)]

/-- A rune that folds to a lower-case ASCII letter is a word rune or one of the
two folding partners outside ASCII. -/
theorem isWordRune_of_simpleFold_i (i : Rune) (h : simpleFold i = 105) : isWordRune i = true := by
  have : i = 105 ∨ i = 73 := by
    simp only [simpleFold, Rune] at *
    split_ifs at h <;> omega
  rcases this with rfl | rfl <;> decide

/-- An utterance `I'm`/`Im` (any letter case), one space, then a non-empty rest of
one line is matched by `dadRegex` at its start; the capture trims to the same
text as the rest. -/
theorem dadRegexFind_im (i : Rune) (apos : Text) (mm : Rune) (rest : Text)
    (hi : simpleFold i = 105) (hapos : apos = [] ∨ apos = [39]) (hm : simpleFold mm = 109)
    (hne : rest ≠ []) (hline : ∀ y ∈ rest, y ≠ 10) :
    ∃ c, dadRegexFind (i :: (apos ++ mm :: 32 :: rest)) = some c ∧
      trimSpace c = trimSpace rest := by
  obtain ⟨c, hc, ht⟩ := spacesThenCapture_line rest hne hline 32 (by decide)
  refine ⟨c, ?_, ht⟩
  have hfi : foldEq 105 i = true := by simp [foldEq, hi]
  have hfm : foldEq 109 mm = true := by simp [foldEq, hm]
  have hw := isWordRune_of_simpleFold_i i hi
  have h39 : mm ≠ 39 := by
    intro h
    rw [h] at hm
    simp [simpleFold] at hm
  rcases hapos with rfl | rfl
  · simp [dadRegexFind, dadScan, dadAt, isWordBoundary, hw, hfi, dadAfterI, dadAfterApostrophe,
      hfm, h39, hc]
  · simp [dadRegexFind, dadScan, dadAt, isWordBoundary, hw, hfi, dadAfterI, dadAfterApostrophe,
      hfm, hc]

/-- A literal match splits the text into the matched runes, which fold to the
pattern, and the rest. -/
theorem matchLiteral_sound (p s m rest : Text) (h : matchLiteral p s = some (m, rest)) :
    s = m ++ rest ∧ m.map simpleFold = p := by
  induction p generalizing s m with
  | nil =>
    simp only [matchLiteral, Option.some.injEq, Prod.mk.injEq] at h
    obtain ⟨rfl, rfl⟩ := h
    exact ⟨rfl, rfl⟩
  | cons a p ih =>
    cases s with
    | nil => simp [matchLiteral] at h
    | cons c cs =>
      by_cases hf : foldEq a c = true
      · simp only [matchLiteral, hf, if_true] at h
        cases hr : matchLiteral p cs with
        | none => simp [hr] at h
        | some q =>
          obtain ⟨m1, rest1⟩ := q
          simp only [hr, Option.some.injEq, Prod.mk.injEq] at h
          obtain ⟨rfl, rfl⟩ := h
          obtain ⟨h1, h2⟩ := ih cs m1 hr
          have hc : simpleFold c = a := by simpa [foldEq] using hf
          exact ⟨by rw [h1]; rfl, by simp [hc, h2]⟩
      · simp [matchLiteral, hf] at h

/-- Runes that fold to the pattern are matched by it. -/
theorem matchLiteral_complete (m rest : Text) :
    matchLiteral (m.map simpleFold) (m ++ rest) = some (m, rest) := by
  induction m with
  | nil => simp [matchLiteral]
  | cons c cs ih => simp [matchLiteral, foldEq, ih]

/-- The code points of the longest pause word. -/
theorem runes_cigarettes :
    runes "cigarettes" = [99, 105, 103, 97, 114, 101, 116, 116, 101, 115] := by decide

/-- The code points of the optional plural ending. -/
theorem runes_s : runes "s" = [115] := by decide

/-- The alternatives of `pauseRegex` as a first-success combination. -/
theorem pauseAlternatives_eq (s : Text) :
    pauseAlternatives s =
      ((matchLiteral (runes "cigs") s).bind (fun p => wordEnd p.1 p.2)).or
        (((matchLiteral (runes "cigarette") s).bind (fun p =>
            ((matchLiteral (runes "s") p.2).bind (fun q => wordEnd (p.1 ++ q.1) q.2)).or
              (wordEnd p.1 p.2))).or
          ((matchLiteral (runes "milk") s).bind (fun p => wordEnd p.1 p.2))) := by
  simp only [pauseAlternatives]
  rcases h2 : matchLiteral (runes "cigarette") s with _ | ⟨m2, r2⟩
  · rcases h1 : matchLiteral (runes "cigs") s with _ | ⟨m1, r1⟩ <;>
    rcases h3 : matchLiteral (runes "milk") s with _ | ⟨m3, r3⟩ <;>
    simp only [Option.some_bind, Option.none_bind] <;> (repeat' split) <;> simp_all
  · rcases h4 : matchLiteral (runes "s") r2 with _ | ⟨m4, r4⟩
    · rcases hw2 : wordEnd m2 r2 with _ | w2 <;>
      rcases h1 : matchLiteral (runes "cigs") s with _ | ⟨m1, r1⟩ <;>
      rcases h3 : matchLiteral (runes "milk") s with _ | ⟨m3, r3⟩ <;>
      simp only [Option.some_bind, Option.none_bind, h4, hw2] <;> (repeat' split) <;> simp_all
    · rcases hw4 : wordEnd (m2 ++ m4) r4 with _ | w4 <;>
      rcases hw2 : wordEnd m2 r2 with _ | w2 <;>
      rcases h1 : matchLiteral (runes "cigs") s with _ | ⟨m1, r1⟩ <;>
      rcases h3 : matchLiteral (runes "milk") s with _ | ⟨m3, r3⟩ <;>
      simp only [Option.some_bind, Option.none_bind, h4, hw4, hw2] <;> (repeat' split) <;>
      simp_all

/-- When the closing `\b` holds. -/
theorem wordEnd_eq_some (m rest w : Text) :
    wordEnd m rest = some w ↔ m = w ∧ isWordBoundary m.getLast? rest = true := by
  unfold wordEnd
  split_ifs with hb <;> simp [hb]

/-- A match of the alternatives of `pauseRegex` is a prefix of the text that folds
to a vocabulary word and ends at a word boundary. -/
theorem pauseAlternatives_sound (s w : Text) (h : pauseAlternatives s = some w) :
    ∃ post, s = w ++ post ∧ w.map simpleFold ∈ pauseVocabulary ∧
      isWordBoundary w.getLast? post = true := by
  rw [pauseAlternatives_eq] at h
  simp only [Option.or_eq_some, Option.bind_eq_some, wordEnd_eq_some, Prod.exists] at h
  rcases h with ⟨m, rest, h1, rfl, hb⟩ | ⟨-, h⟩
  · obtain ⟨e1, e2⟩ := matchLiteral_sound _ _ _ _ h1
    exact ⟨rest, e1, by simp [pauseVocabulary, e2], hb⟩
  · rcases h with ⟨m, rest, h1, h⟩ | ⟨-, m, rest, h1, rfl, hb⟩
    · obtain ⟨e1, e2⟩ := matchLiteral_sound _ _ _ _ h1
      rcases h with ⟨m2, rest2, h2, rfl, hb⟩ | ⟨-, rfl, hb⟩
      · obtain ⟨e3, e4⟩ := matchLiteral_sound _ _ _ _ h2
        refine ⟨rest2, by rw [e1, e3, List.append_assoc], ?_, hb⟩
        have : runes "cigarettes" = runes "cigarette" ++ runes "s" := by decide
        simp [pauseVocabulary, e2, e4, this]
      · exact ⟨rest, e1, by simp [pauseVocabulary, e2], hb⟩
    · obtain ⟨e1, e2⟩ := matchLiteral_sound _ _ _ _ h1
      exact ⟨rest, e1, by simp [pauseVocabulary, e2], hb⟩

/-- A prefix that folds to a vocabulary word and ends at a word boundary is
matched by the alternatives of `pauseRegex`. -/
theorem pauseAlternatives_complete (w post : Text) (hv : w.map simpleFold ∈ pauseVocabulary)
    (hb : isWordBoundary w.getLast? post = true) :
    (pauseAlternatives (w ++ post)).isSome = true := by
  have hend : wordEnd w post = some w := (wordEnd_eq_some w post w).mpr ⟨rfl, hb⟩
  rw [pauseAlternatives_eq]
  simp only [pauseVocabulary, List.mem_cons, List.mem_singleton, List.not_mem_nil, or_false]
    at hv
  simp only [Option.isSome_or, Bool.or_eq_true]
  rcases hv with hv | hv | hv | hv
  · left
    rw [← hv, matchLiteral_complete]
    simp [hend]
  · right; left
    rw [← hv, matchLiteral_complete]
    simp [hend]
  · right; left
    have hsplit : runes "cigarettes" = runes "cigarette" ++ runes "s" := by decide
    rw [hsplit, List.map_eq_append_iff] at hv
    obtain ⟨w9, ws, rfl, h9, hs⟩ := hv
    rw [← h9, List.append_assoc, matchLiteral_complete]
    have hs2 : matchLiteral (runes "s") (ws ++ post) = some (ws, post) := by
      rw [← hs, matchLiteral_complete]
    simp [hs2, hend]
  · right; right
    rw [← hv, matchLiteral_complete]
    simp [hend]

/-- The leftmost search for `pauseRegex` returns a match at some position, and
there is no match at any earlier position. -/
theorem pauseScan_sound (prev : Option Rune) (s w : Text) (h : pauseScan prev s = some w) :
    ∃ pre t, s = pre ++ t ∧ pauseAt (if pre = [] then prev else pre.getLast?) t = some w ∧
      ∀ pre1 t1, s = pre1 ++ t1 → pre1.length < pre.length →
        pauseAt (if pre1 = [] then prev else pre1.getLast?) t1 = none := by
  induction s generalizing prev with
  | nil =>
    refine ⟨[], [], rfl, by simpa [pauseScan] using h, ?_⟩
    intro pre1 t1 _ hl
    simp at hl
  | cons a t ih =>
    cases hd : pauseAt prev (a :: t) with
    | some c1 =>
      simp only [pauseScan, hd] at h
      cases h
      refine ⟨[], a :: t, rfl, by simpa using hd, ?_⟩
      intro pre1 t1 _ hl
      simp at hl
    | none =>
      simp only [pauseScan, hd] at h
      obtain ⟨pre, u, h1, h2, h3⟩ := ih (some a) h
      refine ⟨a :: pre, u, by simp [h1], ?_, ?_⟩
      · cases pre with
        | nil => simpa using h2
        | cons b r => simpa [List.getLast?_cons_cons] using h2
      · intro pre1 t1 he hl
        cases pre1 with
        | nil =>
          simp only [List.nil_append] at he
          subst he
          simpa using hd
        | cons b r =>
          simp only [List.cons_append, List.cons.injEq] at he
          obtain ⟨rfl, he⟩ := he
          have := h3 r t1 he (by simpa using hl)
          cases r with
          | nil => simpa using this
          | cons b2 r2 => simpa [List.getLast?_cons_cons] using this

/-- A match of `pauseRegex` at some position makes the leftmost search succeed. -/
theorem pauseScan_complete (prev : Option Rune) (pre t : Text)
    (h : (pauseAt (if pre = [] then prev else pre.getLast?) t).isSome = true) :
    (pauseScan prev (pre ++ t)).isSome = true := by
  induction pre generalizing prev with
  | nil =>
    obtain ⟨c, hc⟩ := Option.isSome_iff_exists.mp h
    simp only [if_true] at hc
    cases t with
    | nil => simp [pauseScan, hc]
    | cons a u => simp [pauseScan, hc]
  | cons a r ih =>
    simp only [List.cons_append, pauseScan]
    cases pauseAt prev (a :: (r ++ t)) with
    | some c => rfl
    | none =>
      apply ih (some a)
      cases r with
      | nil => simpa using h
      | cons b r2 => simpa [List.getLast?_cons_cons] using h

/-- The rune before a position in a text that starts the message. -/
theorem prev_at_start (p : Text) :
    (if p = [] then (none : Option Rune) else p.getLast?) = p.getLast? := by
  cases p <;> simp

/-- A whole-word occurrence of a vocabulary word is a match of `pauseRegex` at
its position. -/
theorem pauseAt_of_occurrence (pre w post : Text) (h : isPauseWordOccurrence pre w post = true) :
    (pauseAt pre.getLast? (w ++ post)).isSome = true := by
  simp only [isPauseWordOccurrence, Bool.and_eq_true] at h
  obtain ⟨⟨hv, hb1⟩, hb2⟩ := h
  have hv1 : w.map simpleFold ∈ pauseVocabulary := by simpa using hv
  simp only [pauseAt, hb1, if_true]
  exact pauseAlternatives_complete w post hv1 hb2

/-- A match of `pauseRegex` at a position is a whole-word occurrence of a
vocabulary word there. -/
theorem occurrence_of_pauseAt (pre t w : Text) (h : pauseAt pre.getLast? t = some w) :
    ∃ post, t = w ++ post ∧ isPauseWordOccurrence pre w post = true := by
  by_cases hb : isWordBoundary pre.getLast? t = true
  · simp only [pauseAt, hb, if_true] at h
    obtain ⟨post, h1, h2, h3⟩ := pauseAlternatives_sound t w h
    refine ⟨post, h1, ?_⟩
    rw [h1] at hb
    simp [isPauseWordOccurrence, h2, hb, h3]
  · simp [pauseAt, hb] at h

/-- On a content that no rule of the chain matches, every handler of the chain is
called, returns false and does nothing. -/
theorem orChain_no_match (m : Message) (env : Env) (st : BotState)
    (hp : pauseRegexFind m.content = none) (hd : dadRegexFind m.content = none)
    (h1 : toLower m.content ≠ runes "can't win") (h2 : toLower m.content ≠ runes "cant win")
    (h3 : toLower m.content ≠ runes "keep losing")
    (h4 : toLower m.content ≠ runes "tell me a joke")
    (h5 : toLower m.content ≠ runes "good night")
    (h6 : toLower m.content ≠ runes "goodnight") :
    orChain m env dispatchChain st =
      { responseSent := false, state := st, effects := [],
        returns := [(HandlerId.pauseTrigger, false), (HandlerId.dadResponse, false),
          (HandlerId.winLoseTrigger, false), (HandlerId.jokeRequest, false),
          (HandlerId.goodnightRequest, false)] } := by
  simp [dispatchChain, orChain, runHandler, handlePauseTrigger, handleDadResponse,
    handleWinLoseTrigger, handleJokeRequest, handleGoodnightRequest, hp, hd,
    h1, h2, h3, h4, h5, h6]

/-- On a content that no rule of the chain matches, `messageCreate` has no
effect, whoever the author is and whatever the pause state. -/
theorem messageCreate_no_match_effects (s : Session) (m : Message) (env : Env) (st : BotState)
    (hp : pauseRegexFind m.content = none) (hd : dadRegexFind m.content = none)
    (h1 : toLower m.content ≠ runes "can't win") (h2 : toLower m.content ≠ runes "cant win")
    (h3 : toLower m.content ≠ runes "keep losing")
    (h4 : toLower m.content ≠ runes "tell me a joke")
    (h5 : toLower m.content ≠ runes "good night")
    (h6 : toLower m.content ≠ runes "goodnight") :
    (messageCreate s m env st).effects = [] := by
  simp only [messageCreate]
  split_ifs
  · rfl
  · rfl
  · rw [orChain_no_match m env _ hp hd h1 h2 h3 h4 h5 h6]

/-- The same for a message given by its fields. -/
theorem messageCreate_no_match_content (s : Session) (author channel : String)
    (content : Text) (env : Env) (st : BotState)
    (hp : pauseRegexFind content = none) (hd : dadRegexFind content = none)
    (h1 : toLower content ≠ runes "can't win") (h2 : toLower content ≠ runes "cant win")
    (h3 : toLower content ≠ runes "keep losing")
    (h4 : toLower content ≠ runes "tell me a joke")
    (h5 : toLower content ≠ runes "good night")
    (h6 : toLower content ≠ runes "goodnight") :
    (messageCreate s ⟨author, channel, content⟩ env st).effects = [] :=
  messageCreate_no_match_effects s ⟨author, channel, content⟩ env st hp hd h1 h2 h3 h4 h5 h6

/-- Lowering the case of ASCII letters changes none of the tests the matchers
and handlers make on a rune. -/
theorem asciiLower_facts (x : Rune) :
    toLowerRune (asciiLower x) = toLowerRune x ∧
    simpleFold (asciiLower x) = simpleFold x ∧
    isWordRune (asciiLower x) = isWordRune x ∧
    isRegexSpace (asciiLower x) = isRegexSpace x ∧
    isSpaceRune (asciiLower x) = isSpaceRune x ∧
    ((asciiLower x != 10) = (x != 10)) ∧
    (asciiLower x = 39 ↔ x = 39) := by
  by_cases h : 65 ≤ x ∧ x ≤ 90
  · have e : asciiLower x = x + 32 := by simp [asciiLower, h]
    rw [e]
    refine ⟨?_, ?_, ?_, ?_, ?_, ?_, ?_⟩
    · simp only [toLowerRune, Rune] at *
      split_ifs <;> omega
    · simp only [simpleFold, Rune] at *
      split_ifs <;> omega
    · simp only [isWordRune, Rune] at *
      rw [Bool.eq_iff_iff]
      simp only [Bool.or_eq_true, decide_eq_true_eq, beq_iff_eq]
      omega
    · simp only [isRegexSpace, Rune] at *
      rw [Bool.eq_iff_iff]
      simp only [Bool.or_eq_true, beq_iff_eq]
      omega
    · simp only [isSpaceRune, Rune] at *
      rw [Bool.eq_iff_iff]
      simp only [Bool.or_eq_true, decide_eq_true_eq, beq_iff_eq]
      omega
    · simp only [Rune] at *
      rw [Bool.eq_iff_iff]
      simp only [bne_iff_ne, ne_eq]
      omega
    · simp only [Rune] at *
      omega
  · have e : asciiLower x = x := by simp [asciiLower, h]
    rw [e]
    simp

/-- Go `strings.ToLower` does not see the case of ASCII letters. -/
theorem toLower_map_asciiLower (s : Text) : toLower (s.map asciiLower) = toLower s := by
  simp only [toLower, List.map_map]
  apply List.map_congr_left
  intro x _
  exact (asciiLower_facts x).1

/-- A literal match under `(?i)` does not see the case of ASCII letters. -/
theorem matchLiteral_map (p s : Text) :
    matchLiteral p (s.map asciiLower) =
      (matchLiteral p s).map (fun q => (q.1.map asciiLower, q.2.map asciiLower)) := by
  induction p generalizing s with
  | nil => simp [matchLiteral]
  | cons a p ih =>
    cases s with
    | nil => simp [matchLiteral]
    | cons c cs =>
      simp only [List.map_cons, matchLiteral, foldEq, (asciiLower_facts c).2.1, ih]
      split_ifs
      · cases matchLiteral p cs <;> simp
      · simp

/-- The assertion `\b` does not see the case of ASCII letters. -/
theorem isWordBoundary_map (prev : Option Rune) (s : Text) :
    isWordBoundary (prev.map asciiLower) (s.map asciiLower) = isWordBoundary prev s := by
  cases prev <;> cases s <;> simp [isWordBoundary, (asciiLower_facts _).2.2.1]

/-- The closing `\b` does not see the case of ASCII letters. -/
theorem wordEnd_map (m rest : Text) :
    wordEnd (m.map asciiLower) (rest.map asciiLower) =
      (wordEnd m rest).map (List.map asciiLower) := by
  simp only [wordEnd, List.getLast?_map, isWordBoundary_map]
  split_ifs <;> simp

/-- The alternatives of `pauseRegex` do not see the case of ASCII letters. -/
theorem pauseAlternatives_map (s : Text) :
    pauseAlternatives (s.map asciiLower) =
      (pauseAlternatives s).map (List.map asciiLower) := by
  rw [pauseAlternatives_eq, pauseAlternatives_eq]
  simp only [matchLiteral_map, Option.map_or']
  rcases matchLiteral (runes "cigarette") s with _ | ⟨m2, r2⟩ <;>
  rcases matchLiteral (runes "cigs") s with _ | ⟨m1, r1⟩ <;>
  rcases matchLiteral (runes "milk") s with _ | ⟨m3, r3⟩ <;>
  simp [wordEnd_map, matchLiteral_map, Option.map_or']
  all_goals
    rcases matchLiteral (runes "s") r2 with _ | ⟨m4, r4⟩ <;>
    simp [wordEnd_map, ← List.map_append]

/-- A match of `pauseRegex` at a position does not see the case of ASCII
letters. -/
theorem pauseAt_map (prev : Option Rune) (s : Text) :
    pauseAt (prev.map asciiLower) (s.map asciiLower) =
      (pauseAt prev s).map (List.map asciiLower) := by
  simp only [pauseAt, isWordBoundary_map, pauseAlternatives_map]
  split_ifs <;> simp

/-- The search for `pauseRegex` does not see the case of ASCII letters. -/
theorem pauseScan_map (prev : Option Rune) (s : Text) :
    pauseScan (prev.map asciiLower) (s.map asciiLower) =
      (pauseScan prev s).map (List.map asciiLower) := by
  induction s generalizing prev with
  | nil =>
    simp only [List.map_nil, pauseScan]
    exact pauseAt_map prev []
  | cons c cs ih =>
    have h := pauseAt_map prev (c :: cs)
    simp only [List.map_cons] at h
    simp only [List.map_cons, pauseScan, h]
    cases pauseAt prev (c :: cs) with
    | some w => simp
    | none =>
      simp only [Option.map_none']
      exact ih (some c)

/-- The group `(.+)` does not see the case of ASCII letters. -/
theorem dotPlus_map (s : Text) :
    dotPlus (s.map asciiLower) = (dotPlus s).map (List.map asciiLower) := by
  have hf : ((fun r : Rune => r != 10) ∘ asciiLower) = (fun r : Rune => r != 10) := by
    funext x
    exact (asciiLower_facts x).2.2.2.2.2.1
  simp only [dotPlus, List.takeWhile_map, hf]
  cases List.takeWhile (fun r => r != 10) s <;> simp

/-- The part `\s+(.+)` does not see the case of ASCII letters. -/
theorem spacesThenCapture_map (s : Text) :
    spacesThenCapture (s.map asciiLower) =
      (spacesThenCapture s).map (List.map asciiLower) := by
  induction s with
  | nil => simp [spacesThenCapture]
  | cons c cs ih =>
    rw [List.map_cons, spacesThenCapture_cons, spacesThenCapture_cons,
      (asciiLower_facts c).2.2.2.1, ih, dotPlus_map]
    split_ifs
    · cases spacesThenCapture cs <;> simp
    · simp

/-- The part `m\s+(.+)` does not see the case of ASCII letters. -/
theorem dadAfterApostrophe_map (s : Text) :
    dadAfterApostrophe (s.map asciiLower) =
      (dadAfterApostrophe s).map (List.map asciiLower) := by
  cases s with
  | nil => simp [dadAfterApostrophe]
  | cons c cs =>
    simp only [List.map_cons, dadAfterApostrophe, foldEq, (asciiLower_facts c).2.1,
      spacesThenCapture_map]
    split_ifs <;> simp

/-- The part `'?m\s+(.+)` does not see the case of ASCII letters. -/
theorem dadAfterI_map (s : Text) :
    dadAfterI (s.map asciiLower) = (dadAfterI s).map (List.map asciiLower) := by
  cases s with
  | nil => simp [dadAfterI, dadAfterApostrophe]
  | cons c cs =>
    have h1 := dadAfterApostrophe_map cs
    have h2 := dadAfterApostrophe_map (c :: cs)
    simp only [List.map_cons] at h2
    simp only [List.map_cons, dadAfterI, (asciiLower_facts c).2.2.2.2.2.2, h1, h2]
    by_cases hc : c = 39
    · simp only [hc, if_true]
      cases dadAfterApostrophe cs <;> simp
    · simp [hc]

/-- A match of `dadRegex` at a position does not see the case of ASCII letters. -/
theorem dadAt_map (prev : Option Rune) (s : Text) :
    dadAt (prev.map asciiLower) (s.map asciiLower) =
      (dadAt prev s).map (List.map asciiLower) := by
  simp only [dadAt, isWordBoundary_map]
  cases s with
  | nil => simp
  | cons c cs =>
    simp only [List.map_cons, foldEq, (asciiLower_facts c).2.1, dadAfterI_map]
    split_ifs <;> simp

/-- The search for `dadRegex` does not see the case of ASCII letters. -/
theorem dadScan_map (prev : Option Rune) (s : Text) :
    dadScan (prev.map asciiLower) (s.map asciiLower) =
      (dadScan prev s).map (List.map asciiLower) := by
  induction s generalizing prev with
  | nil =>
    simp only [List.map_nil, dadScan]
    exact dadAt_map prev []
  | cons c cs ih =>
    have h := dadAt_map prev (c :: cs)
    simp only [List.map_cons] at h
    simp only [List.map_cons, dadScan, h]
    cases dadAt prev (c :: cs) with
    | some w => simp
    | none =>
      simp only [Option.map_none']
      exact ih (some c)

/-- Go `strings.TrimSpace` commutes with lowering the case of ASCII letters. -/
theorem trimSpace_map (s : Text) :
    trimSpace (s.map asciiLower) = (trimSpace s).map asciiLower := by
  have hf : (isSpaceRune ∘ asciiLower) = isSpaceRune := by
    funext x
    exact (asciiLower_facts x).2.2.2.2.1
  simp only [trimSpace, List.dropWhile_map, hf, ← List.map_reverse]

/-- Contents that differ at most in the case of ASCII letters get the same
answer from `pauseRegex`, up to the case of the matched word. -/
theorem pauseRegexFind_sameUpToCase (a b : Text) (h : sameUpToCase a b) :
    (pauseRegexFind a = none ∧ pauseRegexFind b = none) ∨
    ∃ w1 w2, pauseRegexFind a = some w1 ∧ pauseRegexFind b = some w2 ∧ sameUpToCase w1 w2 := by
  have ha := pauseScan_map none a
  have hb := pauseScan_map none b
  simp only [Option.map_none'] at ha hb
  have hab : (pauseRegexFind a).map (List.map asciiLower) =
      (pauseRegexFind b).map (List.map asciiLower) := by
    unfold pauseRegexFind
    rw [← ha, ← hb, h]
  cases h1 : pauseRegexFind a <;> cases h2 : pauseRegexFind b <;> simp [h1, h2] at hab
  · exact Or.inl ⟨rfl, rfl⟩
  · exact Or.inr ⟨_, _, rfl, rfl, hab⟩

/-- Contents that differ at most in the case of ASCII letters get the same
answer from `dadRegex`, up to the case of the capture. -/
theorem dadRegexFind_sameUpToCase (a b : Text) (h : sameUpToCase a b) :
    (dadRegexFind a = none ∧ dadRegexFind b = none) ∨
    ∃ c1 c2, dadRegexFind a = some c1 ∧ dadRegexFind b = some c2 ∧ sameUpToCase c1 c2 := by
  have ha := dadScan_map none a
  have hb := dadScan_map none b
  simp only [Option.map_none'] at ha hb
  have hab : (dadRegexFind a).map (List.map asciiLower) =
      (dadRegexFind b).map (List.map asciiLower) := by
    unfold dadRegexFind
    rw [← ha, ← hb, h]
  cases h1 : dadRegexFind a <;> cases h2 : dadRegexFind b <;> simp [h1, h2] at hab
  · exact Or.inl ⟨rfl, rfl⟩
  · exact Or.inr ⟨_, _, rfl, rfl, hab⟩

/-- Contents that differ at most in the case of ASCII letters have the same
lower case. -/
theorem toLower_sameUpToCase (a b : Text) (h : sameUpToCase a b) : toLower a = toLower b := by
  rw [← toLower_map_asciiLower a, ← toLower_map_asciiLower b, h]

/-- Equal replies are the same reply. -/
theorem sameReply_refl (t : Text) : sameReply t t :=
  ⟨t, [], [], [], by simp, by simp, rfl⟩

/-- An effect is the same as itself. -/
theorem sameEffect_refl (e : Effect) : sameEffect e e := by
  cases e with
  | send c t => exact ⟨rfl, sameReply_refl t⟩
  | fetch => trivial

/-- A list of effects is the same as itself. -/
theorem sameEffects_refl (es : List Effect) : List.Forall₂ sameEffect es es :=
  List.forall₂_same.mpr (fun e _ => sameEffect_refl e)

/-- Every handler of the chain treats two contents that differ at most in the
case of ASCII letters alike: same result, same state, same effects up to the
echoed text. -/
theorem runHandler_sameUpToCase (h : HandlerId) (m1 m2 : Message) (env : Env) (st : BotState)
    (hchannel : m1.channelID = m2.channelID)
    (hcase : sameUpToCase m1.content m2.content) :
    (runHandler h m1 env st).handled = (runHandler h m2 env st).handled ∧
    (runHandler h m1 env st).state = (runHandler h m2 env st).state ∧
    List.Forall₂ sameEffect (runHandler h m1 env st).effects
      (runHandler h m2 env st).effects := by
  have hlow := toLower_sameUpToCase _ _ hcase
  cases h with
  | pauseTrigger =>
    rcases pauseRegexFind_sameUpToCase _ _ hcase with ⟨h1, h2⟩ | ⟨w1, w2, h1, h2, hw⟩
    · simp [runHandler, handlePauseTrigger, h1, h2]
    · simp only [runHandler, handlePauseTrigger, h1, h2, true_and]
      refine List.Forall₂.cons ⟨hchannel, ?_⟩ List.Forall₂.nil
      exact ⟨runes "Be back in 20, gonna go grab some ", w1, w2, [], by simp, by simp, hw⟩
  | dadResponse =>
    rcases dadRegexFind_sameUpToCase _ _ hcase with ⟨h1, h2⟩ | ⟨c1, c2, h1, h2, hc⟩
    · simp [runHandler, handleDadResponse, h1, h2]
    · have htrim : sameUpToCase (trimSpace c1) (trimSpace c2) := by
        show (trimSpace c1).map asciiLower = (trimSpace c2).map asciiLower
        rw [← trimSpace_map, ← trimSpace_map, hc]
      have hl := toLower_sameUpToCase _ _ htrim
      simp only [runHandler, handleDadResponse, h1, h2, true_and, hl]
      refine List.Forall₂.cons ⟨hchannel, ?_⟩ List.Forall₂.nil
      split_ifs
      · exact sameReply_refl _
      · exact ⟨runes "Hi ", trimSpace c1, trimSpace c2, runes ", I'm Dad!", rfl, rfl, htrim⟩
  | winLoseTrigger =>
    have e : handleWinLoseTrigger m1 st = handleWinLoseTrigger m2 st := by
      simp only [handleWinLoseTrigger, hlow, hchannel]
    simp only [runHandler, e, true_and]
    exact sameEffects_refl _
  | jokeRequest =>
    have e : handleJokeRequest m1 env st = handleJokeRequest m2 env st := by
      simp only [handleJokeRequest, hlow, hchannel]
    simp only [runHandler, e, true_and]
    exact sameEffects_refl _
  | goodnightRequest =>
    have e : handleGoodnightRequest m1 env st = handleGoodnightRequest m2 env st := by
      simp only [handleGoodnightRequest, hlow, hchannel]
    simp only [runHandler, e, true_and]
    exact sameEffects_refl _

/-- The chain treats two contents that differ at most in the case of ASCII
letters alike. -/
theorem orChain_sameUpToCase (m1 m2 : Message) (env : Env)
    (hchannel : m1.channelID = m2.channelID)
    (hcase : sameUpToCase m1.content m2.content) (hs : List HandlerId) (st : BotState) :
    (orChain m1 env hs st).returns = (orChain m2 env hs st).returns ∧
    (orChain m1 env hs st).responseSent = (orChain m2 env hs st).responseSent ∧
    (orChain m1 env hs st).state = (orChain m2 env hs st).state ∧
    List.Forall₂ sameEffect (orChain m1 env hs st).effects (orChain m2 env hs st).effects := by
  induction hs generalizing st with
  | nil => simp [orChain]
  | cons h hs ih =>
    obtain ⟨e1, e2, e3⟩ := runHandler_sameUpToCase h m1 m2 env st hchannel hcase
    unfold orChain
    by_cases hh : (runHandler h m2 env st).handled = true
    · simp only [e1, hh, if_true, e2, true_and]
      exact e3
    · have hf : (runHandler h m2 env st).handled = false := by simpa using hh
      simp only [e1, hf, Bool.false_eq_true, if_false, e2]
      obtain ⟨i1, i2, i3, i4⟩ := ih (runHandler h m2 env st).state
      refine ⟨by rw [i1], i2, i3, ?_⟩
      exact List.rel_append e3 i4

/-! ## Theorems -/

/-- C1: a message event whose author is the bot itself makes `messageCreate`
perform no `ChannelMessageSend`, whatever the content, state, clock readings,
random values and fetch outcome. -/
theorem messageCreate_self_authored_no_send (s : Session) (m : Message) (env : Env)
    (st : BotState) (hself : m.authorID = s.userID) :
    sends (messageCreate s m env st).effects = [] := by
  simp [messageCreate, shouldSkipMessage, hself, sends]

/-- C1 (witness): the bot's own message with content "cigarettes", which matches the
pause rule, is not answered. -/
theorem messageCreate_self_authored_no_send_witness :
    sends (messageCreate ⟨"dadbot"⟩ ⟨"dadbot", "general", runes "cigarettes"⟩
      (Env.atInstant 0 0 ⟨0, by decide⟩ (HttpExchange.transportError "timeout"))
      initialState).effects = [] :=
  messageCreate_self_authored_no_send _ _ _ _ rfl

/-- C2: one call of `messageCreate` performs at most one `ChannelMessageSend`,
and at most one of the handlers it calls returns true. -/
theorem messageCreate_at_most_one (s : Session) (m : Message) (env : Env) (st : BotState) :
    (sends (messageCreate s m env st).effects).length ≤ 1 ∧
    ((messageCreate s m env st).returns.filter (fun p => p.2)).length ≤ 1 := by
  simp only [messageCreate]
  split_ifs
  · simp [sends]
  · simp [sends]
  · exact ⟨orChain_sends_le_one _ _ _ _, orChain_handled_le_one _ _ _ _⟩

/-- C3 (counterexample): the claim as stated fails in two ways. First, the
pause-word message may come from the bot itself; it is then skipped, no pause
starts, and a message one minute later is answered. Second, calls may overlap:
a user's `milk` at clock 200 finds the bot not paused (the pause that ended at
100 has expired) and arms a new pause, but a call that copied the expired state
before that clears `isPaused` afterwards, and `I'm Batman` one minute later is
answered. -/
theorem pause_window_fails_as_stated :
    (¬ (∀ (s : Session) (m m1 : Message) (st : BotState) (t0 t1 : Time) (r r1 : Fin 6)
        (g g1 : Fin goodnightMessages.length) (x x1 : HttpExchange),
        (pauseRegexFind m.content).isSome = true →
        (isBotPaused st t0 t0).1 = false →
        t0 ≤ t1 → t1 < t0 + 15 * minute →
        sends (messageCreate s m1 (Env.atInstant t1 r1 g1 x1)
          (messageCreate s m (Env.atInstant t0 r g x) st).state).effects = [])) ∧
    ((pauseRegexFind (runes "milk")).isSome = true ∧
      (isBotPaused ⟨true, 100, 0, 0⟩ 200 200).1 = false ∧
      (handlePauseTrigger ⟨"user", "general", runes "milk"⟩
        (Env.atInstant 200 0 ⟨0, by decide⟩ (HttpExchange.transportError "timeout"))
        (isBotPaused ⟨true, 100, 0, 0⟩ 200 200).2).state =
        (stepSection (PauseSection.arm 200 0)
          ⟨(isBotPaused ⟨true, 100, 0, 0⟩ 200 200).2, [], [], 0⟩).state ∧
      (runSections
        [PauseSection.snapshot 1, PauseSection.snapshot 2, PauseSection.finish 2 200 200,
         PauseSection.arm 200 0, PauseSection.finish 1 200 200]
        ⟨⟨true, 100, 0, 0⟩, [], [], 0⟩).state = ⟨false, 200 + 15 * minute, 0, 0⟩ ∧
      (200 : Time) + 1 * minute < 200 + 15 * minute ∧
      sends (messageCreate ⟨"dadbot"⟩ ⟨"user", "general", runes "I'm Batman"⟩
        (Env.atInstant (200 + 1 * minute) 0 ⟨0, by decide⟩
          (HttpExchange.transportError "timeout"))
        (runSections
          [PauseSection.snapshot 1, PauseSection.snapshot 2, PauseSection.finish 2 200 200,
           PauseSection.arm 200 0, PauseSection.finish 1 200 200]
          ⟨⟨true, 100, 0, 0⟩, [], [], 0⟩).state).effects =
        [("general", runes "Hi Batman, I'm Dad!")]) := by
  refine ⟨?_, by decide, by decide, by decide, by decide, by decide, by decide⟩
  intro h
  have h1 := h ⟨"dadbot"⟩ ⟨"dadbot", "general", runes "cigarettes"⟩
    ⟨"user", "general", runes "I'm Batman"⟩ initialState 0 (1 * minute) 0 0
    ⟨0, by decide⟩ ⟨0, by decide⟩ (HttpExchange.transportError "timeout")
    (HttpExchange.transportError "timeout") (by decide) (by decide) (by decide) (by decide)
  revert h1
  decide

/-- C3 (amended): when the calls of `messageCreate` run one after the other,
none overlapping another: if a message from an author other than the bot that
contains a pause-vocabulary word is dispatched by `messageCreate` at clock `t0`
while the bot is not paused, then every later message, from any author and with
any content, dispatched at a clock reading before `t0 + 15 minutes` produces no
`ChannelMessageSend` (and no other effect), whatever messages were dispatched in
between within that window. The calls are composed by `runState`, each starting
from the state the one before it left. The first call is at `t0` in that its
clock reading at the update of `pauseEnd` is `t0` or later; a later call is
placed by its first clock reading. Nothing is said here about calls that
overlap. -/
theorem pause_window_no_reply (s : Session) (m : Message) (env : Env) (st : BotState)
    (t0 : Time) (between : List (Message × Env)) (m1 : Message) (env1 : Env)
    (hother : m.authorID ≠ s.userID)
    (hword : (pauseRegexFind m.content).isSome = true)
    (hidle : (isBotPaused st env.nowPauseCheck env.nowPauseExpiry).1 = false)
    (ht0 : t0 ≤ env.nowPauseSet)
    (hbetween : ∀ p ∈ between, p.2.nowPauseCheck < t0 + 15 * minute)
    (ht1 : env1.nowPauseCheck < t0 + 15 * minute) :
    (messageCreate s m1 env1
      (runState s between (messageCreate s m env st).state)).effects = [] ∧
    sends (messageCreate s m1 env1
      (runState s between (messageCreate s m env st).state)).effects = [] := by
  obtain ⟨w, hw⟩ := Option.isSome_iff_exists.mp hword
  have hskip : shouldSkipMessage s m = false := by
    simpa [shouldSkipMessage] using hother
  have hfirst : (messageCreate s m env st).state.isPaused = true ∧
      t0 + 15 * minute ≤ (messageCreate s m env st).state.pauseEnd := by
    have hr := env.randPause.isLt
    simp only [messageCreate, hskip, hidle, dispatchChain, orChain, runHandler,
      handlePauseTrigger, hw, timeAdd]
    simp only [Bool.false_eq_true, if_false, if_true, true_and]
    simp only [Time, Duration, minute, second] at *
    omega
  have hstate := runState_while_paused s (t0 + 15 * minute) between hbetween
    (messageCreate s m env st).state hfirst.1 hfirst.2
  have hdrop := messageCreate_dropped_while_paused s m1 env1 (messageCreate s m env st).state
    hfirst.1 (lt_of_lt_of_le ht1 hfirst.2)
  rw [hstate, hdrop]
  exact ⟨rfl, rfl⟩

/-- C3 (witness): "cigarettes" from a user, then "I'm Batman" one minute later. -/
theorem pause_window_no_reply_witness :
    sends (messageCreate ⟨"dadbot"⟩ ⟨"user", "general", runes "I'm Batman"⟩
      (Env.atInstant (1 * minute) 0 ⟨0, by decide⟩ (HttpExchange.transportError "timeout"))
      (runState ⟨"dadbot"⟩ []
        (messageCreate ⟨"dadbot"⟩ ⟨"user", "general", runes "cigarettes"⟩
          (Env.atInstant 0 0 ⟨0, by decide⟩ (HttpExchange.transportError "timeout"))
          initialState).state)).effects = [] :=
  (pause_window_no_reply ⟨"dadbot"⟩ ⟨"user", "general", runes "cigarettes"⟩
    (Env.atInstant 0 0 ⟨0, by decide⟩ (HttpExchange.transportError "timeout"))
    initialState 0 [] ⟨"user", "general", runes "I'm Batman"⟩
    (Env.atInstant (1 * minute) 0 ⟨0, by decide⟩ (HttpExchange.transportError "timeout"))
    (by decide) (by decide) (by decide) (by decide) (by simp) (by decide)).2

/-- C4: for a pause state with `isPaused = true` and expiry `pauseEnd = t`,
`isBotPaused` returns true exactly when the clock reading it compares is
strictly before `t`; at `t` and after it returns false, and any number of reads
at the instant `t` itself all return false. -/
theorem isBotPaused_true_iff_before (st : BotState) (now1 now2 : Time)
    (hp : st.isPaused = true) :
    ((isBotPaused st now1 now2).1 = true ↔ now1 < st.pauseEnd) ∧
    (st.pauseEnd ≤ now1 → (isBotPaused st now1 now2).1 = false) ∧
    (∀ n : Nat, repeatedReads n st.pauseEnd st = List.replicate n false) := by
  refine ⟨?_, ?_, fun n => repeatedReads_boundary n st⟩
  · simp only [isBotPaused, hp, timeBefore, timeAfter, Bool.true_and]
    by_cases h : now1 < st.pauseEnd
    · simp [h]
    · by_cases h2 : now2 > st.pauseEnd <;> simp [h, h2]
  · intro h
    have h1 : ¬ now1 < st.pauseEnd := not_lt.mpr h
    simp only [isBotPaused, hp, timeBefore, timeAfter, Bool.true_and]
    by_cases h2 : now2 > st.pauseEnd <;> simp [h1, h2]

/-- C4 (witness): a pause ending at 100 read at 99 and at 100, and three reads
at the boundary. -/
theorem isBotPaused_true_iff_before_witness :
    (isBotPaused ⟨true, 100, 0, 0⟩ 99 99).1 = true ∧
    (isBotPaused ⟨true, 100, 0, 0⟩ 100 100).1 = false ∧
    repeatedReads 3 100 ⟨true, 100, 0, 0⟩ = [false, false, false] :=
  ⟨(isBotPaused_true_iff_before ⟨true, 100, 0, 0⟩ 99 99 rfl).1.mpr (by decide),
   (isBotPaused_true_iff_before ⟨true, 100, 0, 0⟩ 100 100 rfl).2.1 (by decide),
   (isBotPaused_true_iff_before ⟨true, 100, 0, 0⟩ 100 100 rfl).2.2 3⟩

/-- C5 (failing input): a read of `isBotPaused` at the boundary instant
`now = pauseEnd` returns false and leaves `isPaused` set: the transition to
Idle is not performed. -/
theorem isBotPaused_boundary_keeps_flag (t lastJoke lastGoodnight : Time) :
    isBotPaused ⟨true, t, lastJoke, lastGoodnight⟩ t t =
      (false, ⟨true, t, lastJoke, lastGoodnight⟩) := by
  simp [isBotPaused, timeBefore, timeAfter]

/-- C6: when the content matches the pause rule, `handlePauseTrigger` sets
`isPaused` and sets `pauseEnd` to the clock reading of the update plus
`15 + r` minutes, `r` the value of `rand.Intn(6)`; the pause lasts a whole
number of minutes between 15 and 20, and both 15 and 20 occur. -/
theorem handlePauseTrigger_sets_pause (m : Message) (env : Env) (st : BotState)
    (hm : (pauseRegexFind m.content).isSome = true) :
    (handlePauseTrigger m env st).state.isPaused = true ∧
    (handlePauseTrigger m env st).state.pauseEnd =
      env.nowPauseSet + (15 + (env.randPause.val : Int)) * minute ∧
    (∃ k : Int, 15 ≤ k ∧ k ≤ 20 ∧
      (handlePauseTrigger m env st).state.pauseEnd - env.nowPauseSet = k * minute) ∧
    (∃ e : Env, (handlePauseTrigger m e st).state.pauseEnd - e.nowPauseSet = 15 * minute) ∧
    (∃ e : Env, (handlePauseTrigger m e st).state.pauseEnd - e.nowPauseSet = 20 * minute) := by
  obtain ⟨w, hw⟩ := Option.isSome_iff_exists.mp hm
  have key : ∀ e : Env, (handlePauseTrigger m e st).state.pauseEnd =
      e.nowPauseSet + (15 + (e.randPause.val : Int)) * minute := by
    intro e
    simp [handlePauseTrigger, hw, timeAdd]
  refine ⟨by simp [handlePauseTrigger, hw], key env, ?_, ?_, ?_⟩
  · refine ⟨15 + (env.randPause.val : Int), by omega, ?_, ?_⟩
    · have := env.randPause.isLt
      omega
    · rw [key env]; simp only [Time, Duration] at *; ring
  · refine ⟨{ env with randPause := 0 }, ?_⟩
    rw [key]; simp
  · refine ⟨{ env with randPause := 5 }, ?_⟩
    have h5 : (((5 : Fin 6) : Nat) : Int) = 5 := rfl
    rw [key]; simp [h5]

/-- C6 (witness): content "cigarettes" with random value 5 at clock 1000. -/
theorem handlePauseTrigger_sets_pause_witness :
    (handlePauseTrigger ⟨"user", "general", runes "cigarettes"⟩
      (Env.atInstant 1000 5 ⟨0, by decide⟩ (HttpExchange.transportError "timeout"))
      initialState).state.pauseEnd = 1000 + (15 + ((5 : Fin 6).val : Int)) * minute :=
  (handlePauseTrigger_sets_pause ⟨"user", "general", runes "cigarettes"⟩
    (Env.atInstant 1000 5 ⟨0, by decide⟩ (HttpExchange.transportError "timeout"))
    initialState (by decide)).2.1

/-- C7: for a message matching the phrase, `handleJokeRequest` (window 5 s,
state `lastJokeTime`) and `handleGoodnightRequest` (window 3 s, state
`lastGoodnightTime`) pass the gate exactly when the clock reading minus the
last-fired time is at least the window; on a pass the handler records the clock
reading as the last-fired time, otherwise it returns false, does nothing and
leaves the state as it was. With one clock reading per call this is
`tryAcquireSpec`. -/
theorem cooldown_gate_tryAcquire (mj mg : Message) (env : Env) (st : BotState)
    (hj : toLower mj.content = runes "tell me a joke")
    (hg : toLower mg.content = runes "good night" ∨ toLower mg.content = runes "goodnight") :
    (((handleJokeRequest mj env st).handled = true ↔
        env.nowJokeSince - st.lastJokeTime ≥ jokeCooldown) ∧
      ((handleJokeRequest mj env st).handled = true →
        (handleJokeRequest mj env st).state = { st with lastJokeTime := env.nowJokeSet }) ∧
      ((handleJokeRequest mj env st).handled = false →
        (handleJokeRequest mj env st).effects = [] ∧ (handleJokeRequest mj env st).state = st) ∧
      (env.nowJokeSince = env.nowJokeSet →
        ((handleJokeRequest mj env st).handled, (handleJokeRequest mj env st).state.lastJokeTime)
          = tryAcquireSpec jokeCooldown st.lastJokeTime env.nowJokeSet)) ∧
    (((handleGoodnightRequest mg env st).handled = true ↔
        env.nowGoodnightSince - st.lastGoodnightTime ≥ goodnightCooldown) ∧
      ((handleGoodnightRequest mg env st).handled = true →
        (handleGoodnightRequest mg env st).state =
          { st with lastGoodnightTime := env.nowGoodnightSet }) ∧
      ((handleGoodnightRequest mg env st).handled = false →
        (handleGoodnightRequest mg env st).effects = [] ∧
          (handleGoodnightRequest mg env st).state = st) ∧
      (env.nowGoodnightSince = env.nowGoodnightSet →
        ((handleGoodnightRequest mg env st).handled,
          (handleGoodnightRequest mg env st).state.lastGoodnightTime)
          = tryAcquireSpec goodnightCooldown st.lastGoodnightTime env.nowGoodnightSet)) := by
  have hg' : ¬ (toLower mg.content ≠ runes "good night" ∧
      toLower mg.content ≠ runes "goodnight") := by
    rcases hg with h | h <;> simp [h]
  constructor
  · by_cases hc : env.nowJokeSince - st.lastJokeTime < jokeCooldown
    · have hs := (timeSince_lt_jokeCooldown env.nowJokeSince st.lastJokeTime).mpr hc
      have hr : handleJokeRequest mj env st = { handled := false, state := st, effects := [] } := by
        simp [handleJokeRequest, hj, hs]
      have hn : ¬ (env.nowJokeSince - st.lastJokeTime ≥ jokeCooldown) := not_le.mpr hc
      refine ⟨?_, ?_, ?_, ?_⟩
      · simp [hr, hn]
      · simp [hr]
      · simp [hr]
      · intro he
        rw [he] at hn
        simp [hr, tryAcquireSpec, hn]
    · have hs : ¬ timeSince env.nowJokeSince st.lastJokeTime < jokeCooldown :=
        fun h => hc ((timeSince_lt_jokeCooldown _ _).mp h)
      have hge : env.nowJokeSince - st.lastJokeTime ≥ jokeCooldown := not_lt.mp hc
      have hr : (handleJokeRequest mj env st).handled = true ∧
          (handleJokeRequest mj env st).state = { st with lastJokeTime := env.nowJokeSet } := by
        simp only [handleJokeRequest, hj, hs, ne_eq, not_true_eq_false, if_false]
        cases getDadJoke env.http <;> simp
      refine ⟨?_, ?_, ?_, ?_⟩
      · simp [hr.1, hge]
      · intro _; exact hr.2
      · intro h; rw [hr.1] at h; cases h
      · intro he
        rw [he] at hge
        simp [hr.1, hr.2, tryAcquireSpec, hge]
  · by_cases hc : env.nowGoodnightSince - st.lastGoodnightTime < goodnightCooldown
    · have hs := (timeSince_lt_goodnightCooldown env.nowGoodnightSince st.lastGoodnightTime).mpr hc
      have hr : handleGoodnightRequest mg env st =
          { handled := false, state := st, effects := [] } := by
        simp only [handleGoodnightRequest, if_neg hg', hs, if_true]
      have hn : ¬ (env.nowGoodnightSince - st.lastGoodnightTime ≥ goodnightCooldown) :=
        not_le.mpr hc
      refine ⟨?_, ?_, ?_, ?_⟩
      · simp [hr, hn]
      · simp [hr]
      · simp [hr]
      · intro he
        rw [he] at hn
        simp [hr, tryAcquireSpec, hn]
    · have hs : ¬ timeSince env.nowGoodnightSince st.lastGoodnightTime < goodnightCooldown :=
        fun h => hc ((timeSince_lt_goodnightCooldown _ _).mp h)
      have hge : env.nowGoodnightSince - st.lastGoodnightTime ≥ goodnightCooldown :=
        not_lt.mp hc
      have hr : (handleGoodnightRequest mg env st).handled = true ∧
          (handleGoodnightRequest mg env st).state =
            { st with lastGoodnightTime := env.nowGoodnightSet } := by
        simp only [handleGoodnightRequest, if_neg hg', hs, if_false, and_self]
      refine ⟨?_, ?_, ?_, ?_⟩
      · simp [hr.1, hge]
      · intro _; exact hr.2
      · intro h; rw [hr.1] at h; cases h
      · intro he
        rw [he] at hge
        simp [hr.1, hr.2, tryAcquireSpec, hge]

/-- C7 (witness): both phrases at clock 7 s, the joke gate last fired at 1 s and
the good-night gate at 3 s: both gates pass. -/
theorem cooldown_gate_tryAcquire_witness :
    (handleJokeRequest ⟨"user", "general", runes "Tell me a JOKE"⟩
        (Env.atInstant 7000000000 0 ⟨0, by decide⟩ (HttpExchange.transportError "timeout"))
        ⟨false, 0, 1000000000, 3000000000⟩).handled = true ∧
    (handleGoodnightRequest ⟨"user", "general", runes "GoodNight"⟩
        (Env.atInstant 7000000000 0 ⟨0, by decide⟩ (HttpExchange.transportError "timeout"))
        ⟨false, 0, 1000000000, 3000000000⟩).handled = true :=
  ⟨(cooldown_gate_tryAcquire ⟨"user", "general", runes "Tell me a JOKE"⟩
      ⟨"user", "general", runes "GoodNight"⟩
      (Env.atInstant 7000000000 0 ⟨0, by decide⟩ (HttpExchange.transportError "timeout"))
      ⟨false, 0, 1000000000, 3000000000⟩ (by decide) (Or.inr (by decide))).1.1.mpr (by decide),
   (cooldown_gate_tryAcquire ⟨"user", "general", runes "Tell me a JOKE"⟩
      ⟨"user", "general", runes "GoodNight"⟩
      (Env.atInstant 7000000000 0 ⟨0, by decide⟩ (HttpExchange.transportError "timeout"))
      ⟨false, 0, 1000000000, 3000000000⟩ (by decide) (Or.inr (by decide))).2.1.mpr (by decide)⟩

/-- C9: for a joke request that passes the cooldown gate, if `getDadJoke` returns
an error then `handleJokeRequest` makes one fetch, sends exactly one message, the
fixed fallback text, returns true (so the rest of the chain is not called), and
`lastJokeTime` is the reading recorded by the gate; if `getDadJoke` returns a
text, the one message sent is that text. -/
theorem handleJokeRequest_fetch_outcome (m : Message) (env : Env) (st : BotState)
    (hj : toLower m.content = runes "tell me a joke")
    (hgate : env.nowJokeSince - st.lastJokeTime ≥ jokeCooldown) :
    (∀ err, getDadJoke env.http = Except.error err →
      (handleJokeRequest m env st).effects =
        [Effect.fetch, Effect.send m.channelID
          (runes "Gosh dang joke AI always breakin. Tell Clutch to fix it.")] ∧
      sends (handleJokeRequest m env st).effects =
        [(m.channelID, runes "Gosh dang joke AI always breakin. Tell Clutch to fix it.")] ∧
      (handleJokeRequest m env st).handled = true ∧
      (handleJokeRequest m env st).state = { st with lastJokeTime := env.nowJokeSet } ∧
      (orChain m env (dispatchChain.drop 3) st).returns = [(HandlerId.jokeRequest, true)]) ∧
    (∀ joke, getDadJoke env.http = Except.ok joke →
      sends (handleJokeRequest m env st).effects = [(m.channelID, joke)] ∧
      (handleJokeRequest m env st).handled = true ∧
      (handleJokeRequest m env st).state = { st with lastJokeTime := env.nowJokeSet }) := by
  have hs : ¬ timeSince env.nowJokeSince st.lastJokeTime < jokeCooldown :=
    fun h => absurd ((timeSince_lt_jokeCooldown _ _).mp h) (not_lt.mpr hgate)
  constructor
  · intro err he
    have hr : handleJokeRequest m env st =
        { handled := true, state := { st with lastJokeTime := env.nowJokeSet },
          effects := [Effect.fetch, Effect.send m.channelID jokeFallback] } := by
      simp [handleJokeRequest, hj, hs, he]
    refine ⟨by rw [hr]; rfl, by rw [hr]; rfl, by rw [hr], by rw [hr], ?_⟩
    simp [dispatchChain, orChain, runHandler, hr]
  · intro joke he
    have hr : handleJokeRequest m env st =
        { handled := true, state := { st with lastJokeTime := env.nowJokeSet },
          effects := [Effect.fetch, Effect.send m.channelID joke] } := by
      simp [handleJokeRequest, hj, hs, he]
    exact ⟨by rw [hr]; rfl, by rw [hr], by rw [hr]⟩

/-- C9 (witness): a joke request at process start whose fetch times out. -/
theorem handleJokeRequest_fetch_outcome_witness :
    sends (handleJokeRequest ⟨"user", "general", runes "tell me a joke"⟩
      (Env.atInstant 0 0 ⟨0, by decide⟩ (HttpExchange.transportError "timeout"))
      initialState).effects =
      [("general", runes "Gosh dang joke AI always breakin. Tell Clutch to fix it.")] :=
  ((handleJokeRequest_fetch_outcome ⟨"user", "general", runes "tell me a joke"⟩
    (Env.atInstant 0 0 ⟨0, by decide⟩ (HttpExchange.transportError "timeout"))
    initialState (by decide) (by decide)).1 "timeout" rfl).2.1

/-- C10 (counterexample): for a response with status 500 and a readable body,
`getDadJoke` returns the body without error, and the joke-request rule sends
that body, not the fallback line. -/
theorem getDadJoke_status_500_returns_body :
    getDadJoke (HttpExchange.response 500 (runes "Internal Server Error")) =
      Except.ok (runes "Internal Server Error") ∧
    (¬ ∃ err, getDadJoke (HttpExchange.response 500 (runes "Internal Server Error")) =
      Except.error err) ∧
    sends (handleJokeRequest ⟨"user", "general", runes "tell me a joke"⟩
      (Env.atInstant 0 0 ⟨0, by decide⟩
        (HttpExchange.response 500 (runes "Internal Server Error")))
      initialState).effects = [("general", runes "Internal Server Error")] := by
  refine ⟨rfl, ?_, by decide⟩
  rintro ⟨err, h⟩
  cases h

/-- C10 (amended): `getDadJoke` returns an error exactly when building the
request, the HTTP exchange (network failure, timeout) or reading the body
fails; a response with a readable body gives that body without error whatever
its status code. A joke request that passes the gate therefore sends the
fallback line after a transport failure and the body text after any response
with a readable body. -/
theorem getDadJoke_error_iff_no_readable_response (m : Message) (env : Env) (st : BotState)
    (hj : toLower m.content = runes "tell me a joke")
    (hgate : env.nowJokeSince - st.lastJokeTime ≥ jokeCooldown) :
    (∀ x : HttpExchange, (∃ err, getDadJoke x = Except.error err) ↔
      ∀ status body, x ≠ HttpExchange.response status body) ∧
    (∀ err, getDadJoke (HttpExchange.transportError err) = Except.error err) ∧
    (∀ status body, getDadJoke (HttpExchange.response status body) = Except.ok body) ∧
    (∀ err, env.http = HttpExchange.transportError err →
      sends (handleJokeRequest m env st).effects = [(m.channelID, jokeFallback)]) ∧
    (∀ status body, env.http = HttpExchange.response status body →
      sends (handleJokeRequest m env st).effects = [(m.channelID, body)]) := by
  have hs : ¬ timeSince env.nowJokeSince st.lastJokeTime < jokeCooldown :=
    fun h => absurd ((timeSince_lt_jokeCooldown _ _).mp h) (not_lt.mpr hgate)
  refine ⟨?_, fun _ => rfl, fun _ _ => rfl, ?_, ?_⟩
  · intro x
    cases x <;> simp [getDadJoke]
  · intro err he
    simp [handleJokeRequest, hj, hs, he, getDadJoke, sends]
  · intro status body he
    simp [handleJokeRequest, hj, hs, he, getDadJoke, sends]

/-- C10 (witness): a joke request whose fetch ends in a 404 response. -/
theorem getDadJoke_error_iff_no_readable_response_witness :
    sends (handleJokeRequest ⟨"user", "general", runes "tell me a joke"⟩
      (Env.atInstant 0 0 ⟨0, by decide⟩ (HttpExchange.response 404 (runes "Not Found")))
      initialState).effects = [("general", runes "Not Found")] :=
  (getDadJoke_error_iff_no_readable_response ⟨"user", "general", runes "tell me a joke"⟩
    (Env.atInstant 0 0 ⟨0, by decide⟩ (HttpExchange.response 404 (runes "Not Found")))
    initialState (by decide) (by decide)).2.2.2.2 404 (runes "Not Found") rfl

/-- C11: `handleDadResponse` on a content that `dadRegex` matches (a word-start
`I'm` or `Im` in any letter case, one or more white-space runes, then a non-empty
capture `c` that runs to the end of the line; the leftmost such position)
sends exactly one reply and returns true: `No, I'm dad!` if `trim(c)` is `dad`
in any letter case, otherwise `Hi ` + `trim(c)` + `, I'm Dad!`. Every content
with such an occurrence is matched. On a content without a match it sends
nothing and returns false. `I'm Batman` and `im dad` give the two replies of the
scenarios. -/
theorem handleDadResponse_reply (m : Message) (st : BotState) :
    (∀ pre i apos mm ws x rest,
      m.content = pre ++ i :: (apos ++ mm :: (ws ++ x :: rest)) →
      isWordBoundary pre.getLast? (i :: (apos ++ mm :: (ws ++ x :: rest))) = true →
      simpleFold i = 105 → (apos = [] ∨ apos = [39]) → simpleFold mm = 109 →
      ws ≠ [] → (∀ y ∈ ws, isRegexSpace y = true) → x ≠ 10 →
      (dadRegexFind m.content).isSome = true) ∧
    (∀ c, dadRegexFind m.content = some c →
      (∃ pre i apos mm ws post,
        m.content = pre ++ i :: (apos ++ mm :: (ws ++ c ++ post)) ∧
        isWordBoundary pre.getLast? (i :: (apos ++ mm :: (ws ++ c ++ post))) = true ∧
        simpleFold i = 105 ∧ (apos = [] ∨ apos = [39]) ∧ simpleFold mm = 109 ∧
        ws ≠ [] ∧ (∀ y ∈ ws, isRegexSpace y = true) ∧
        c ≠ [] ∧ (∀ y ∈ c, y ≠ 10) ∧ (post = [] ∨ post.head? = some 10) ∧
        (∀ pre1 t1, m.content = pre1 ++ t1 → pre1.length < pre.length →
          dadAt pre1.getLast? t1 = none)) ∧
      (handleDadResponse m st).handled = true ∧
      (handleDadResponse m st).state = st ∧
      (handleDadResponse m st).effects =
        [Effect.send m.channelID
          (if toLower (trimSpace c) = runes "dad" then runes "No, I'm dad!"
           else runes "Hi " ++ trimSpace c ++ runes ", I'm Dad!")]) ∧
    (dadRegexFind m.content = none →
      (handleDadResponse m st).handled = false ∧
      (handleDadResponse m st).effects = [] ∧
      (handleDadResponse m st).state = st) ∧
    (∀ author channel, (handleDadResponse ⟨author, channel, runes "I'm Batman"⟩ st).effects =
      [Effect.send channel (runes "Hi Batman, I'm Dad!")]) ∧
    (∀ author channel, (handleDadResponse ⟨author, channel, runes "im dad"⟩ st).effects =
      [Effect.send channel (runes "No, I'm dad!")]) := by
  refine ⟨?_, ?_, ?_, ?_, ?_⟩
  · intro pre i apos mm ws x rest hc hb hi hapos hm hne hws hx
    rw [hc]
    apply dadScan_complete none pre
    have hp : (if pre = [] then (none : Option Rune) else pre.getLast?) = pre.getLast? := by
      cases pre <;> simp
    rw [hp]
    exact dadAt_complete _ i apos mm ws x rest hb hi hapos hm hne hws hx
  · intro c hc
    refine ⟨?_, by simp [handleDadResponse, hc], by simp [handleDadResponse, hc], ?_⟩
    · obtain ⟨pre, t, h1, h2, h3⟩ := dadScan_sound none m.content c hc
      have hp : ∀ p : Text, (if p = [] then (none : Option Rune) else p.getLast?) = p.getLast? := by
        intro p
        cases p <;> simp
      rw [hp] at h2
      obtain ⟨hb, i, apos, mm, ws, post, h4, h5, h6, h7, h8, h9, h10, h11, h12⟩ :=
        dadAt_sound _ t c h2
      subst h4
      refine ⟨pre, i, apos, mm, ws, post, h1, hb, h5, h6, h7, h8, h9, h10, h11, h12, ?_⟩
      intro pre1 t1 he hl
      have := h3 pre1 t1 he hl
      rwa [hp] at this
    · simp only [handleDadResponse, hc]
  · intro hn
    simp [handleDadResponse, hn]
  · intro author channel
    have h1 : dadRegexFind (runes "I'm Batman") = some (runes "Batman") := by decide
    have h2 : (if toLower (trimSpace (runes "Batman")) = runes "dad" then runes "No, I'm dad!"
        else runes "Hi " ++ trimSpace (runes "Batman") ++ runes ", I'm Dad!") =
        runes "Hi Batman, I'm Dad!" := by decide
    simp only [handleDadResponse, h1, h2]
  · intro author channel
    have h1 : dadRegexFind (runes "im dad") = some (runes "dad") := by decide
    have h2 : (if toLower (trimSpace (runes "dad")) = runes "dad" then runes "No, I'm dad!"
        else runes "Hi " ++ trimSpace (runes "dad") ++ runes ", I'm Dad!") =
        runes "No, I'm dad!" := by decide
    simp only [handleDadResponse, h1, h2]

/-- C11 (witness): `I'm`, three spaces, `Batman` and trailing spaces inside a
longer message. -/
theorem handleDadResponse_reply_witness :
    (handleDadResponse ⟨"user", "general", runes "well, I'm   Batman  "⟩ initialState).effects =
      [Effect.send "general" (runes "Hi Batman, I'm Dad!")] :=
  ((handleDadResponse_reply ⟨"user", "general", runes "well, I'm   Batman  "⟩ initialState).2.1
    (runes "Batman  ") (by decide)).2.2.2.trans (by decide)

/-- C12 (counterexample): `I am Batman` from a user, with the bot not paused, is
matched by no rule; `handleDadResponse` returns false and nothing is sent. -/
theorem i_am_not_matched :
    ¬ (∀ (s : Session) (m : Message) (env : Env) (st : BotState) (rest : Text),
        m.authorID ≠ s.userID →
        (isBotPaused st env.nowPauseCheck env.nowPauseExpiry).1 = false →
        rest ≠ [] → pauseRegexFind rest = none →
        m.content = runes "I am " ++ rest →
        (handleDadResponse m st).handled = true ∧
        (messageCreate s m env st).effects =
          [Effect.send m.channelID (runes "Hi " ++ trimSpace rest ++ runes ", I'm Dad!")]) := by
  intro h
  have h1 := (h ⟨"dadbot"⟩ ⟨"user", "general", runes "I am Batman"⟩
    (Env.atInstant 0 0 ⟨0, by decide⟩ (HttpExchange.transportError "timeout")) initialState
    (runes "Batman") (by decide) (by decide) (by decide) (by decide) (by decide)).1
  revert h1
  decide

/-- C12 (amended): the name-introduction rule matches utterances of the shape
`I'm <rest>` and `Im <rest>` (any letter case), not `I am <rest>`. For a
non-empty rest of one line, a message `I'm ` + rest or `Im ` + rest without
pause-vocabulary word, from an author other than the bot, dispatched while the
bot is not paused, is handled by `handleDadResponse`, which replies
`No, I'm dad!` if `trim(rest)` is `dad` in any letter case and otherwise with the
greeting `Hi ` + `trim(rest)` + `, I'm Dad!`. The message `I am Batman` is
matched by no rule and gets no reply. -/
theorem dad_rule_matches_im_only (s : Session) (m : Message) (env : Env) (st : BotState)
    (i : Rune) (apos : Text) (mm : Rune) (rest : Text)
    (hother : m.authorID ≠ s.userID)
    (hidle : (isBotPaused st env.nowPauseCheck env.nowPauseExpiry).1 = false)
    (hi : simpleFold i = 105) (hapos : apos = [] ∨ apos = [39]) (hm : simpleFold mm = 109)
    (hc : m.content = i :: (apos ++ mm :: 32 :: rest))
    (hne : rest ≠ []) (hline : ∀ y ∈ rest, y ≠ 10)
    (hpause : pauseRegexFind m.content = none) :
    (handleDadResponse m st).handled = true ∧
    (messageCreate s m env st).returns =
      [(HandlerId.pauseTrigger, false), (HandlerId.dadResponse, true)] ∧
    (messageCreate s m env st).effects =
      [Effect.send m.channelID
        (if toLower (trimSpace rest) = runes "dad" then runes "No, I'm dad!"
         else runes "Hi " ++ trimSpace rest ++ runes ", I'm Dad!")] ∧
    (∀ (s1 : Session) (author channel : String) (env1 : Env) (st1 : BotState),
      (handleDadResponse ⟨author, channel, runes "I am Batman"⟩ st1).handled = false ∧
      (messageCreate s1 ⟨author, channel, runes "I am Batman"⟩ env1 st1).effects = []) := by
  obtain ⟨c, hfind, htrim⟩ := dadRegexFind_im i apos mm rest hi hapos hm hne hline
  rw [← hc] at hfind
  have hskip : shouldSkipMessage s m = false := by
    simpa [shouldSkipMessage] using hother
  refine ⟨by simp [handleDadResponse, hfind], ?_, ?_, ?_⟩
  · simp [messageCreate, hskip, hidle, dispatchChain, orChain, runHandler, handlePauseTrigger,
      hpause, handleDadResponse, hfind]
  · simp [messageCreate, hskip, hidle, dispatchChain, orChain, runHandler, handlePauseTrigger,
      hpause, handleDadResponse, hfind, htrim]
  · intro s1 author channel env1 st1
    have hp : pauseRegexFind (runes "I am Batman") = none := by decide
    have hd : dadRegexFind (runes "I am Batman") = none := by decide
    have e1 : toLower (runes "I am Batman") ≠ runes "can't win" := by decide
    have e2 : toLower (runes "I am Batman") ≠ runes "cant win" := by decide
    have e3 : toLower (runes "I am Batman") ≠ runes "keep losing" := by decide
    have e4 : toLower (runes "I am Batman") ≠ runes "tell me a joke" := by decide
    have e5 : toLower (runes "I am Batman") ≠ runes "good night" := by decide
    have e6 : toLower (runes "I am Batman") ≠ runes "goodnight" := by decide
    refine ⟨by simp [handleDadResponse, hd], ?_⟩
    simp only [messageCreate]
    split_ifs
    · rfl
    · rfl
    · simp [dispatchChain, orChain, runHandler, handlePauseTrigger, handleDadResponse,
        handleWinLoseTrigger, handleJokeRequest, handleGoodnightRequest, hp, hd,
        e1, e2, e3, e4, e5, e6]

/-- C12 (witness): `I'm Batman` from a user at process start. -/
theorem dad_rule_matches_im_only_witness :
    (messageCreate ⟨"dadbot"⟩ ⟨"user", "general", runes "I'm Batman"⟩
      (Env.atInstant 0 0 ⟨0, by decide⟩ (HttpExchange.transportError "timeout"))
      initialState).effects = [Effect.send "general" (runes "Hi Batman, I'm Dad!")] :=
  (dad_rule_matches_im_only ⟨"dadbot"⟩ ⟨"user", "general", runes "I'm Batman"⟩
    (Env.atInstant 0 0 ⟨0, by decide⟩ (HttpExchange.transportError "timeout"))
    initialState 73 [39] 109 (runes "Batman") (by decide) (by decide) (by decide)
    (Or.inr rfl) (by decide) (by decide) (by decide) (by decide) (by decide)).2.2.1.trans
    (by decide)

/-- C13: the consumption-break rule has first priority. For a message from an
author other than the bot, dispatched while the bot is not paused, whose content
has a whole-word occurrence of `cigs`, `cigarette`, `cigarettes` or `milk` in
any letter case, `messageCreate` sends exactly one reply,
`Be back in 20, gonna go grab some ` followed by the leftmost matched word as
written in the message, only `handlePauseTrigger` is called, and the bot is
paused afterwards. `I'm out of milk`, which the name-introduction rule matches
too, gets the pause reply. -/
theorem pause_rule_first_priority (s : Session) (m : Message) (env : Env) (st : BotState)
    (pre w post : Text)
    (hother : m.authorID ≠ s.userID)
    (hidle : (isBotPaused st env.nowPauseCheck env.nowPauseExpiry).1 = false)
    (hc : m.content = pre ++ w ++ post)
    (hocc : isPauseWordOccurrence pre w post = true) :
    (∃ pre1 w1 post1, m.content = pre1 ++ w1 ++ post1 ∧
      isPauseWordOccurrence pre1 w1 post1 = true ∧
      (∀ pre2 w2 post2, m.content = pre2 ++ w2 ++ post2 →
        isPauseWordOccurrence pre2 w2 post2 = true → pre1.length ≤ pre2.length) ∧
      (messageCreate s m env st).effects =
        [Effect.send m.channelID (runes "Be back in 20, gonna go grab some " ++ w1)]) ∧
    (messageCreate s m env st).returns = [(HandlerId.pauseTrigger, true)] ∧
    (messageCreate s m env st).state.isPaused = true ∧
    (messageCreate s m env st).state.pauseEnd =
      env.nowPauseSet + (15 + (env.randPause.val : Int)) * minute ∧
    (∀ now1 now2 : Time, now1 < env.nowPauseSet + 15 * minute →
      (isBotPaused (messageCreate s m env st).state now1 now2).1 = true) ∧
    (∀ (s1 : Session) (author channel : String) (env1 : Env) (st1 : BotState),
      author ≠ s1.userID →
      (isBotPaused st1 env1.nowPauseCheck env1.nowPauseExpiry).1 = false →
      (dadRegexFind (runes "I'm out of milk")).isSome = true ∧
      (messageCreate s1 ⟨author, channel, runes "I'm out of milk"⟩ env1 st1).effects =
        [Effect.send channel (runes "Be back in 20, gonna go grab some milk")]) := by
  have hskip : shouldSkipMessage s m = false := by
    simpa [shouldSkipMessage] using hother
  have hsome : (pauseRegexFind m.content).isSome = true := by
    rw [hc, List.append_assoc]
    apply pauseScan_complete none pre
    rw [prev_at_start]
    exact pauseAt_of_occurrence pre w post hocc
  obtain ⟨w1, hw1⟩ := Option.isSome_iff_exists.mp hsome
  have hst : (messageCreate s m env st).state.isPaused = true ∧
      (messageCreate s m env st).state.pauseEnd =
        env.nowPauseSet + (15 + (env.randPause.val : Int)) * minute := by
    simp [messageCreate, hskip, hidle, dispatchChain, orChain, runHandler, handlePauseTrigger,
      hw1, timeAdd]
  refine ⟨?_, ?_, hst.1, hst.2, ?_, ?_⟩
  · obtain ⟨pre1, t, h1, h2, h3⟩ := pauseScan_sound none m.content w1 hw1
    rw [prev_at_start] at h2
    obtain ⟨post1, h4, h5⟩ := occurrence_of_pauseAt pre1 t w1 h2
    refine ⟨pre1, w1, post1, by rw [h1, h4, List.append_assoc], h5, ?_, ?_⟩
    · intro pre2 w2 post2 hc2 hocc2
      by_contra hlt
      have hn := h3 pre2 (w2 ++ post2) (by rw [hc2, List.append_assoc]) (not_le.mp hlt)
      rw [prev_at_start] at hn
      have hs := pauseAt_of_occurrence pre2 w2 post2 hocc2
      rw [hn] at hs
      cases hs
    · simp [messageCreate, hskip, hidle, dispatchChain, orChain, runHandler,
        handlePauseTrigger, hw1]
  · simp [messageCreate, hskip, hidle, dispatchChain, orChain, runHandler, handlePauseTrigger,
      hw1]
  · intro now1 now2 hnow
    have hr : (0 : Int) ≤ (env.randPause.val : Int) := Int.ofNat_nonneg _
    have hlt : now1 < (messageCreate s m env st).state.pauseEnd := by
      rw [hst.2]
      simp only [Time, Duration, minute, second] at *
      omega
    simp [isBotPaused, hst.1, timeBefore, hlt]
  · intro s1 author channel env1 st1 ho hi
    have hskip1 : shouldSkipMessage s1 ⟨author, channel, runes "I'm out of milk"⟩ = false := by
      simpa [shouldSkipMessage] using ho
    have hp : pauseRegexFind (runes "I'm out of milk") = some (runes "milk") := by decide
    refine ⟨by decide, ?_⟩
    have hcat : runes "Be back in 20, gonna go grab some " ++ runes "milk" =
        runes "Be back in 20, gonna go grab some milk" := by decide
    simp [messageCreate, hskip1, hi, dispatchChain, orChain, runHandler, handlePauseTrigger,
      hp, hcat]

/-- C13 (witness): `Got any CIGARETTES? or milk` from a user at process start; the
leftmost word is echoed as written. -/
theorem pause_rule_first_priority_witness :
    (messageCreate ⟨"dadbot"⟩ ⟨"user", "general", runes "Got any CIGARETTES? or milk"⟩
      (Env.atInstant 0 0 ⟨0, by decide⟩ (HttpExchange.transportError "timeout"))
      initialState).returns = [(HandlerId.pauseTrigger, true)] ∧
    (messageCreate ⟨"dadbot"⟩ ⟨"user", "general", runes "Got any CIGARETTES? or milk"⟩
      (Env.atInstant 0 0 ⟨0, by decide⟩ (HttpExchange.transportError "timeout"))
      initialState).state.isPaused = true :=
  ⟨(pause_rule_first_priority ⟨"dadbot"⟩
      ⟨"user", "general", runes "Got any CIGARETTES? or milk"⟩
      (Env.atInstant 0 0 ⟨0, by decide⟩ (HttpExchange.transportError "timeout"))
      initialState (runes "Got any CIGARETTES? or ") (runes "milk") []
      (by decide) (by decide) (by decide) (by decide)).2.1,
   (pause_rule_first_priority ⟨"dadbot"⟩
      ⟨"user", "general", runes "Got any CIGARETTES? or milk"⟩
      (Env.atInstant 0 0 ⟨0, by decide⟩ (HttpExchange.transportError "timeout"))
      initialState (runes "Got any CIGARETTES? or ") (runes "milk") []
      (by decide) (by decide) (by decide) (by decide)).2.2.1⟩

/-- C14 (failing input): `too hot`, `too cold` and `money`, from any author and in
any state, get no reply from `messageCreate`: the chain has five operands and
neither `handleThermostatRequest` nor `handleCatGirlRequest` is one of them.
Called on their own the two handlers do match these contents. -/
theorem thermostat_and_money_not_dispatched (s : Session) (author channel : String)
    (env : Env) (st : BotState) :
    (messageCreate s ⟨author, channel, runes "too hot"⟩ env st).effects = [] ∧
    (messageCreate s ⟨author, channel, runes "too cold"⟩ env st).effects = [] ∧
    (messageCreate s ⟨author, channel, runes "money"⟩ env st).effects = [] ∧
    dispatchChain.length = 5 ∧
    (handleCatGirlRequest ⟨author, channel, runes "money"⟩ st).effects =
      [Effect.send channel
        (runes "Every dollar not spent on genetically engineering cat girls is a dollar wasted.")] ∧
    (∀ r, (handleThermostatRequest ⟨author, channel, runes "too hot"⟩ r st).handled = true) ∧
    (∀ r, (handleThermostatRequest ⟨author, channel, runes "too cold"⟩ r st).handled = true) := by
  refine ⟨?_, ?_, ?_, rfl, ?_, ?_, ?_⟩
  · exact messageCreate_no_match_content s author channel _ env st (by decide) (by decide) (by decide)
      (by decide) (by decide) (by decide) (by decide) (by decide)
  · exact messageCreate_no_match_content s author channel _ env st (by decide) (by decide) (by decide)
      (by decide) (by decide) (by decide) (by decide) (by decide)
  · exact messageCreate_no_match_content s author channel _ env st (by decide) (by decide) (by decide)
      (by decide) (by decide) (by decide) (by decide) (by decide)
  · have hf : catgirlRegexFind (runes "money") = some (runes "money") := by decide
    simp only [handleCatGirlRequest, hf]
    rfl
  · intro r
    have hf : thermostatRegexFind (runes "too hot") = some (runes "too hot") := by decide
    simp only [handleThermostatRequest, hf]
  · intro r
    have hf : thermostatRegexFind (runes "too cold") = some (runes "too cold") := by decide
    simp only [handleThermostatRequest, hf]

/-- C15: for a content equal to `good night` or `goodnight` up to letter case,
processed when the three-second cooldown has elapsed, `handleGoodnightRequest`
sends exactly one reply, the entry of `goodnightMessages` at the random index;
the index is in range, the reply is a member of the pool of six, and every entry
of the pool is sent for some value of the index. For any other content the
handler returns false and sends nothing. -/
theorem handleGoodnightRequest_reply (m : Message) (env : Env) (st : BotState) :
    ((toLower m.content = runes "good night" ∨ toLower m.content = runes "goodnight") →
      env.nowGoodnightSince - st.lastGoodnightTime ≥ goodnightCooldown →
      (handleGoodnightRequest m env st).handled = true ∧
      (handleGoodnightRequest m env st).effects =
        [Effect.send m.channelID (goodnightMessages.get env.randGoodnight)] ∧
      env.randGoodnight.val < goodnightMessages.length ∧
      goodnightMessages[env.randGoodnight.val]? = some (goodnightMessages.get env.randGoodnight) ∧
      goodnightMessages.get env.randGoodnight ∈ goodnightMessages ∧
      (∀ reply ∈ goodnightMessages, ∃ r : Fin goodnightMessages.length,
        (handleGoodnightRequest m { env with randGoodnight := r } st).effects =
          [Effect.send m.channelID reply])) ∧
    goodnightMessages.length = 6 ∧
    (¬ (toLower m.content = runes "good night" ∨ toLower m.content = runes "goodnight") →
      (handleGoodnightRequest m env st).handled = false ∧
      (handleGoodnightRequest m env st).effects = []) := by
  refine ⟨?_, rfl, ?_⟩
  · intro hm hgate
    have hm1 : ¬ (toLower m.content ≠ runes "good night" ∧
        toLower m.content ≠ runes "goodnight") := by
      rcases hm with h | h <;> simp [h]
    have hs : ¬ timeSince env.nowGoodnightSince st.lastGoodnightTime < goodnightCooldown :=
      fun h => absurd ((timeSince_lt_goodnightCooldown _ _).mp h) (not_lt.mpr hgate)
    have key : ∀ r : Fin goodnightMessages.length,
        handleGoodnightRequest m { env with randGoodnight := r } st =
          { handled := true, state := { st with lastGoodnightTime := env.nowGoodnightSet },
            effects := [Effect.send m.channelID (goodnightMessages.get r)] } := by
      intro r
      simp only [handleGoodnightRequest, if_neg hm1, if_neg hs]
    have hk := key env.randGoodnight
    refine ⟨by rw [hk], by rw [hk], env.randGoodnight.isLt, ?_, List.get_mem _ _ _, ?_⟩
    · simp
    · intro reply hr
      obtain ⟨r, hget⟩ := List.get_of_mem hr
      exact ⟨r, by rw [key r, hget]⟩
  · intro hn
    have hn1 : toLower m.content ≠ runes "good night" ∧
        toLower m.content ≠ runes "goodnight" := by
      constructor
      · exact fun h => hn (Or.inl h)
      · exact fun h => hn (Or.inr h)
    simp [handleGoodnightRequest, hn1]

/-- C15 (witness): `Good Night` at process start with random index 5. -/
theorem handleGoodnightRequest_reply_witness :
    (handleGoodnightRequest ⟨"user", "general", runes "Good Night"⟩
      (Env.atInstant 0 0 ⟨5, by decide⟩ (HttpExchange.transportError "timeout"))
      initialState).effects =
      [Effect.send "general" (runes "Don't forget to brush your teeth")] :=
  (((handleGoodnightRequest_reply ⟨"user", "general", runes "Good Night"⟩
    (Env.atInstant 0 0 ⟨5, by decide⟩ (HttpExchange.transportError "timeout"))
    initialState).1 (Or.inl (by decide)) (by decide)).2.1).trans (by decide)

/-- C16 (counterexample): with `isPaused` still set for a pause that expired at
100, a message `hello` from a user at clock 200 finds the bot not paused and
matches no rule, yet the call changes the pause state: `isPaused` is cleared. -/
theorem no_match_clears_expired_pause :
    ¬ (∀ (s : Session) (m : Message) (env : Env) (st : BotState),
        m.authorID ≠ s.userID →
        (isBotPaused st env.nowPauseCheck env.nowPauseExpiry).1 = false →
        pauseRegexFind m.content = none → dadRegexFind m.content = none →
        toLower m.content ≠ runes "can't win" → toLower m.content ≠ runes "cant win" →
        toLower m.content ≠ runes "keep losing" →
        toLower m.content ≠ runes "tell me a joke" →
        toLower m.content ≠ runes "good night" → toLower m.content ≠ runes "goodnight" →
        sends (messageCreate s m env st).effects = [] ∧
        (messageCreate s m env st).state.isPaused = st.isPaused ∧
        (messageCreate s m env st).state.pauseEnd = st.pauseEnd ∧
        (messageCreate s m env st).state.lastJokeTime = st.lastJokeTime ∧
        (messageCreate s m env st).state.lastGoodnightTime = st.lastGoodnightTime) := by
  intro h
  have h1 := (h ⟨"dadbot"⟩ ⟨"user", "general", runes "hello"⟩
    (Env.atInstant 200 0 ⟨0, by decide⟩ (HttpExchange.transportError "timeout"))
    ⟨true, 100, 0, 0⟩ (by decide) (by decide) (by decide) (by decide) (by decide) (by decide)
    (by decide) (by decide) (by decide) (by decide)).2.1
  revert h1
  decide

/-- C16 (amended): for a message from an author other than the bot, dispatched
while the bot is not paused, whose content matches none of the rules of the
chain, `messageCreate` sends no reply, every handler of the chain returns false,
and `pauseEnd` and both cooldown timestamps are left unchanged. The state is
left as the pause query of the call leaves it: unchanged when `isPaused` was
not set, and otherwise (a pause whose expiry has passed) with `isPaused`
cleared or unchanged. The empty content matches no rule. -/
theorem no_match_no_reply (s : Session) (m : Message) (env : Env) (st : BotState)
    (hother : m.authorID ≠ s.userID)
    (hidle : (isBotPaused st env.nowPauseCheck env.nowPauseExpiry).1 = false)
    (hp : pauseRegexFind m.content = none) (hd : dadRegexFind m.content = none)
    (h1 : toLower m.content ≠ runes "can't win") (h2 : toLower m.content ≠ runes "cant win")
    (h3 : toLower m.content ≠ runes "keep losing")
    (h4 : toLower m.content ≠ runes "tell me a joke")
    (h5 : toLower m.content ≠ runes "good night")
    (h6 : toLower m.content ≠ runes "goodnight") :
    (messageCreate s m env st).effects = [] ∧
    sends (messageCreate s m env st).effects = [] ∧
    (messageCreate s m env st).responseSent = false ∧
    (∀ p ∈ (messageCreate s m env st).returns, p.2 = false) ∧
    (messageCreate s m env st).state =
      (isBotPaused st env.nowPauseCheck env.nowPauseExpiry).2 ∧
    (messageCreate s m env st).state.pauseEnd = st.pauseEnd ∧
    (messageCreate s m env st).state.lastJokeTime = st.lastJokeTime ∧
    (messageCreate s m env st).state.lastGoodnightTime = st.lastGoodnightTime ∧
    (st.isPaused = false → (messageCreate s m env st).state = st) ∧
    ((messageCreate s m env st).state.isPaused ≠ st.isPaused →
      st.isPaused = true ∧ st.pauseEnd < env.nowPauseExpiry ∧
      (messageCreate s m env st).state.isPaused = false) ∧
    (pauseRegexFind [] = none ∧ dadRegexFind [] = none ∧
      (∀ (s1 : Session) (author channel : String) (env1 : Env) (st1 : BotState),
        (messageCreate s1 ⟨author, channel, []⟩ env1 st1).effects = [])) := by
  have hskip : shouldSkipMessage s m = false := by
    simpa [shouldSkipMessage] using hother
  have hmc : messageCreate s m env st =
      { responseSent := false,
        state := (isBotPaused st env.nowPauseCheck env.nowPauseExpiry).2, effects := [],
        returns := [(HandlerId.pauseTrigger, false), (HandlerId.dadResponse, false),
          (HandlerId.winLoseTrigger, false), (HandlerId.jokeRequest, false),
          (HandlerId.goodnightRequest, false)] } := by
    simp only [messageCreate, hskip, hidle, Bool.false_eq_true, if_false]
    exact orChain_no_match m env _ hp hd h1 h2 h3 h4 h5 h6
  have hq : (isBotPaused st env.nowPauseCheck env.nowPauseExpiry).2 = st ∨
      (st.isPaused = true ∧ st.pauseEnd < env.nowPauseExpiry ∧
        (isBotPaused st env.nowPauseCheck env.nowPauseExpiry).2 =
          { st with isPaused := false }) := by
    simp only [isBotPaused]
    split_ifs with ha hb
    · exact Or.inl rfl
    · right
      simp only [Bool.and_eq_true, timeAfter, decide_eq_true_eq] at hb
      exact ⟨hb.1, hb.2, rfl⟩
    · exact Or.inl rfl
  rw [hmc]
  refine ⟨rfl, rfl, rfl, by simp, rfl, ?_, ?_, ?_, ?_, ?_, by decide, by decide, ?_⟩
  · rcases hq with e | ⟨_, _, e⟩ <;> simp [e]
  · rcases hq with e | ⟨_, _, e⟩ <;> simp [e]
  · rcases hq with e | ⟨_, _, e⟩ <;> simp [e]
  · intro hf
    rcases hq with e | ⟨ht, _, _⟩
    · exact e
    · rw [hf] at ht
      cases ht
  · intro hne
    rcases hq with e | ⟨ht, hlt, e⟩
    · simp [e] at hne
    · exact ⟨ht, hlt, by simp [e]⟩
  · intro s1 author channel env1 st1
    exact messageCreate_no_match_content s1 author channel [] env1 st1 (by decide) (by decide)
      (by decide) (by decide) (by decide) (by decide) (by decide) (by decide)

/-- C16 (witness): `hello` from a user at process start. -/
theorem no_match_no_reply_witness :
    (messageCreate ⟨"dadbot"⟩ ⟨"user", "general", runes "hello"⟩
      (Env.atInstant 0 0 ⟨0, by decide⟩ (HttpExchange.transportError "timeout"))
      initialState).effects = [] ∧
    (messageCreate ⟨"dadbot"⟩ ⟨"user", "general", runes "hello"⟩
      (Env.atInstant 0 0 ⟨0, by decide⟩ (HttpExchange.transportError "timeout"))
      initialState).state = initialState :=
  ⟨(no_match_no_reply ⟨"dadbot"⟩ ⟨"user", "general", runes "hello"⟩
      (Env.atInstant 0 0 ⟨0, by decide⟩ (HttpExchange.transportError "timeout"))
      initialState (by decide) (by decide) (by decide) (by decide) (by decide) (by decide)
      (by decide) (by decide) (by decide) (by decide)).1,
   (no_match_no_reply ⟨"dadbot"⟩ ⟨"user", "general", runes "hello"⟩
      (Env.atInstant 0 0 ⟨0, by decide⟩ (HttpExchange.transportError "timeout"))
      initialState (by decide) (by decide) (by decide) (by decide) (by decide) (by decide)
      (by decide) (by decide) (by decide) (by decide)).2.2.2.2.2.2.2.2.1 rfl⟩

/-- C17: while a pause lasts, a call of `messageCreate` with a clock reading
before the expiry is a no-op, whatever the message, one with a pause-vocabulary
word included: no handler is called, no reply is sent and the state, with its
expiry, is the same afterwards; this holds for any number of such calls. -/
theorem retrigger_while_paused_noop (s : Session) (m : Message) (env : Env) (st : BotState)
    (hpaused : st.isPaused = true) (hnow : env.nowPauseCheck < st.pauseEnd) :
    (messageCreate s m env st).state = st ∧
    (messageCreate s m env st).state.isPaused = true ∧
    (messageCreate s m env st).state.pauseEnd = st.pauseEnd ∧
    (messageCreate s m env st).effects = [] ∧
    sends (messageCreate s m env st).effects = [] ∧
    (messageCreate s m env st).returns = [] ∧
    (∀ calls : List (Message × Env), (∀ p ∈ calls, p.2.nowPauseCheck < st.pauseEnd) →
      runState s calls st = st) := by
  have h := messageCreate_dropped_while_paused s m env st hpaused hnow
  rw [h]
  refine ⟨rfl, hpaused, rfl, rfl, rfl, rfl, ?_⟩
  intro calls hc
  exact runState_while_paused s st.pauseEnd calls hc st hpaused (le_refl _)

/-- C17 (witness): `cigarettes` at clock 50 during a pause that ends at 100. -/
theorem retrigger_while_paused_noop_witness :
    (messageCreate ⟨"dadbot"⟩ ⟨"user", "general", runes "cigarettes"⟩
      (Env.atInstant 50 5 ⟨0, by decide⟩ (HttpExchange.transportError "timeout"))
      ⟨true, 100, 0, 0⟩).state = ⟨true, 100, 0, 0⟩ ∧
    (messageCreate ⟨"dadbot"⟩ ⟨"user", "general", runes "cigarettes"⟩
      (Env.atInstant 50 5 ⟨0, by decide⟩ (HttpExchange.transportError "timeout"))
      ⟨true, 100, 0, 0⟩).effects = [] :=
  ⟨(retrigger_while_paused_noop ⟨"dadbot"⟩ ⟨"user", "general", runes "cigarettes"⟩
      (Env.atInstant 50 5 ⟨0, by decide⟩ (HttpExchange.transportError "timeout"))
      ⟨true, 100, 0, 0⟩ rfl (by decide)).1,
   (retrigger_while_paused_noop ⟨"dadbot"⟩ ⟨"user", "general", runes "cigarettes"⟩
      (Env.atInstant 50 5 ⟨0, by decide⟩ (HttpExchange.transportError "timeout"))
      ⟨true, 100, 0, 0⟩ rfl (by decide)).2.2.2.1⟩

/-- C18 (failing input): two callers read the pause that expired at 100; the
second clears it and its message arms a new pause that ends 15 minutes after
200; then the first caller, deciding on its stale copy, clears `isPaused`
again. The armed pause with its expiry in the future is cleared, and the one
expiry led to two clearing writes. Run one caller after the other, the same
steps leave the armed pause in place, and a `snapshot` directly followed by
its `finish` is `isBotPaused`. -/
theorem concurrent_reader_clears_armed_pause :
    (runSections
      [PauseSection.snapshot 1, PauseSection.snapshot 2, PauseSection.finish 2 200 200,
       PauseSection.arm 200 0, PauseSection.finish 1 200 200]
      ⟨⟨true, 100, 0, 0⟩, [], [], 0⟩).state.isPaused = false ∧
    (200 : Time) < (runSections
      [PauseSection.snapshot 1, PauseSection.snapshot 2, PauseSection.finish 2 200 200,
       PauseSection.arm 200 0, PauseSection.finish 1 200 200]
      ⟨⟨true, 100, 0, 0⟩, [], [], 0⟩).state.pauseEnd ∧
    (runSections
      [PauseSection.snapshot 1, PauseSection.snapshot 2, PauseSection.finish 2 200 200,
       PauseSection.arm 200 0, PauseSection.finish 1 200 200]
      ⟨⟨true, 100, 0, 0⟩, [], [], 0⟩).clears = 2 ∧
    (runSections
      [PauseSection.snapshot 1, PauseSection.finish 1 200 200, PauseSection.snapshot 2,
       PauseSection.finish 2 200 200, PauseSection.arm 200 0]
      ⟨⟨true, 100, 0, 0⟩, [], [], 0⟩).state.isPaused = true ∧
    (∀ (st : BotState) (caller : Nat) (now1 now2 : Time),
      (runSections [PauseSection.snapshot caller, PauseSection.finish caller now1 now2]
        ⟨st, [], [], 0⟩).state = (isBotPaused st now1 now2).2 ∧
      (runSections [PauseSection.snapshot caller, PauseSection.finish caller now1 now2]
        ⟨st, [], [], 0⟩).results = [(caller, (isBotPaused st now1 now2).1)]) := by
  refine ⟨by decide, by decide, by decide, by decide, ?_⟩
  intro st caller now1 now2
  simp only [runSections, stepSection, List.lookup, beq_self_eq_true, isBotPaused]
  split_ifs <;> simp

/-- C19: matching is case-insensitive. For two messages of the same author in
the same channel whose contents differ at most in the case of ASCII letters,
with the same state, clock readings, random values and fetch outcome,
`messageCreate` calls the same handlers with the same results, leaves the same
state, and has the same effects; the texts sent are equal except for the echoed
part (matched pause word, captured name), which differs at most in letter
case. -/
theorem messageCreate_case_insensitive (s : Session) (m1 m2 : Message) (env : Env)
    (st : BotState)
    (hauthor : m1.authorID = m2.authorID) (hchannel : m1.channelID = m2.channelID)
    (hcase : sameUpToCase m1.content m2.content) :
    (messageCreate s m1 env st).returns = (messageCreate s m2 env st).returns ∧
    (messageCreate s m1 env st).responseSent = (messageCreate s m2 env st).responseSent ∧
    (messageCreate s m1 env st).state = (messageCreate s m2 env st).state ∧
    List.Forall₂ sameEffect (messageCreate s m1 env st).effects
      (messageCreate s m2 env st).effects := by
  simp only [messageCreate, shouldSkipMessage, hauthor]
  split_ifs
  · simp
  · simp
  · exact orChain_sameUpToCase m1 m2 env hchannel hcase dispatchChain _

/-- C19 (witness): `I'M BATMAN` and `i'm batman` from the same user. -/
theorem messageCreate_case_insensitive_witness :
    (messageCreate ⟨"dadbot"⟩ ⟨"user", "general", runes "I'M BATMAN"⟩
      (Env.atInstant 0 0 ⟨0, by decide⟩ (HttpExchange.transportError "timeout"))
      initialState).returns =
    (messageCreate ⟨"dadbot"⟩ ⟨"user", "general", runes "i'm batman"⟩
      (Env.atInstant 0 0 ⟨0, by decide⟩ (HttpExchange.transportError "timeout"))
      initialState).returns :=
  (messageCreate_case_insensitive ⟨"dadbot"⟩ ⟨"user", "general", runes "I'M BATMAN"⟩
    ⟨"user", "general", runes "i'm batman"⟩
    (Env.atInstant 0 0 ⟨0, by decide⟩ (HttpExchange.transportError "timeout"))
    initialState rfl rfl (by decide)).1

/-- C20 (failing input): on `too hot` and on `too cold`, for both values of the
random index, `handleThermostatRequest` sends the entry of `goodnightMessages`
at that index, which is not a member of `thermostatMessages`. -/
theorem thermostat_reply_from_goodnight_pool (author channel : String)
    (r : Fin thermostatMessages.length) (st : BotState) :
    (handleThermostatRequest ⟨author, channel, runes "too hot"⟩ r st).effects =
      [Effect.send channel
        (goodnightMessages.get ⟨r.val, Nat.lt_of_lt_of_le r.isLt (by decide)⟩)] ∧
    (handleThermostatRequest ⟨author, channel, runes "too cold"⟩ r st).effects =
      [Effect.send channel
        (goodnightMessages.get ⟨r.val, Nat.lt_of_lt_of_le r.isLt (by decide)⟩)] ∧
    goodnightMessages.get ⟨r.val, Nat.lt_of_lt_of_le r.isLt (by decide)⟩ ∉ thermostatMessages ∧
    (handleThermostatRequest ⟨author, channel, runes "too hot"⟩ ⟨0, by decide⟩ st).effects =
      [Effect.send channel (runes "Goodnight Snore-osaurus Rex.")] := by
  have h1 : thermostatRegexFind (runes "too hot") = some (runes "too hot") := by decide
  have h2 : thermostatRegexFind (runes "too cold") = some (runes "too cold") := by decide
  have h3 : ∀ q : Fin thermostatMessages.length,
      goodnightMessages.get ⟨q.val, Nat.lt_of_lt_of_le q.isLt (by decide)⟩ ∉
        thermostatMessages := by decide
  refine ⟨?_, ?_, h3 r, ?_⟩
  · simp only [handleThermostatRequest, h1]
  · simp only [handleThermostatRequest, h2]
  · simp only [handleThermostatRequest, h1]
    rfl

end Dadbot
